import Mathlib

/-!
Verification of the Oppia statistics-storage layer and the
ListOfUnicodeString answer-classification rules.

Shallow embedding of:
  * `StateAnswersModel._shard_answers` and
    `StateAnswersModel._insert_submitted_answers_unsafe`
    (core/storage/statistics/gae_models.py),
  * `StateAnswersCalcOutputModel.create_or_update`,
  * the rule predicates of extensions/rules/list_of_unicode_string.py.

Answer dicts are modelled by an abstract type `α` and the size
estimator `_get_answer_dict_size` (which computes
`sys.getsizeof(json.dumps(answer_dict))`, a strictly positive byte
count) by an abstract function `sz : α → Nat`.  Python's stable
`sorted(..., key=lambda x: x[1])` is modelled by an ascending
insertion sort on the (answer, size) pairs; the spec treats the order
of equal-size records as unspecified.  The datastore visible to one
(exploration_id, exploration_version, state_name) key is modelled as a
map from shard ids to optional shard entities; `put_multi` writes a
list of entities.  Python operations that would raise (attribute
access on a missing shard) are modelled by `Option`.
-/

namespace Oppia

/-- Capacity constant `_MAX_ANSWER_LIST_BYTE_SIZE` of `StateAnswersModel`. -/
def MAX_ANSWER_LIST_BYTE_SIZE : Nat := 900000

variable {α : Type}

/-- The `(answer_dict, size)` pairs of `_shard_answers`, sorted ascending by
size, mirroring
`sorted([(a, _get_answer_dict_size(a)) for a in new_answer_list], key=lambda x: x[1])`. -/
def answer_size_pairs (sz : α → Nat) (new_answer_list : List α) : List (α × Nat) :=
  List.insertionSort (fun p q => p.2 ≤ q.2) (new_answer_list.map (fun a => (a, sz a)))

/-- One iteration of the loop of `_shard_answers`: the state is the pair
(`sharded_answer_lists`, `sharded_answer_list_sizes`); the new answer is
appended to the last bucket when it fits, otherwise a new bucket is opened. -/
def shard_answers_step (acc : List (List α) × List Nat) (p : α × Nat) :
    List (List α) × List Nat :=
  if acc.2.getLastD 0 + p.2 ≤ MAX_ANSWER_LIST_BYTE_SIZE then
    (acc.1.dropLast ++ [acc.1.getLastD [] ++ [p.1]],
     acc.2.dropLast ++ [acc.2.getLastD 0 + p.2])
  else
    (acc.1 ++ [[p.1]], acc.2 ++ [p.2])

/-- Embedding of `StateAnswersModel._shard_answers`: starting from one bucket holding (a
copy of) the current answer list with its size, fold the size-sorted new
answers through `shard_answers_step`. -/
def shard_answers (sz : α → Nat) (current_answer_list : List α)
    (current_answer_list_size : Nat) (new_answer_list : List α) :
    List (List α) × List Nat :=
  (answer_size_pairs sz new_answer_list).foldl shard_answers_step
    ([current_answer_list], [current_answer_list_size])

/-- Modelled from the spec's packing procedure (spec section 4.2, steps 2-3),
for comparison with `shard_answers`: buckets are kept as (records, size)
pairs in reverse order (most recent bucket first); each sorted record is
appended to the most recent bucket when it fits within the capacity,
otherwise it opens a new bucket.  The `[]` accumulator case is unreachable
from `spec_pack`. -/
def spec_pack_loop : List (α × Nat) → List (List α × Nat) → List (List α × Nat)
  | [], acc => acc
  | p :: rest, [] => spec_pack_loop rest [([p.1], p.2)]
  | p :: rest, b :: acc =>
    if b.2 + p.2 ≤ MAX_ANSWER_LIST_BYTE_SIZE then
      spec_pack_loop rest ((b.1 ++ [p.1], b.2 + p.2) :: acc)
    else
      spec_pack_loop rest (([p.1], p.2) :: b :: acc)

/-- Modelled from the spec's packing procedure (spec section 4.2): sort the
new records ascending by estimated size, then run the greedy loop started
from one bucket holding the tail records with the tail size, and return the
buckets in creation order. -/
def spec_pack (sz : α → Nat) (tail_records : List α) (tail_size : Nat)
    (new_records : List α) : List (List α × Nat) :=
  (spec_pack_loop (answer_size_pairs sz new_records) [(tail_records, tail_size)]).reverse

theorem spec_pack_loop_foldl (recs : List (α × Nat)) :
    ∀ acc : List (List α × Nat), acc ≠ [] →
      recs.foldl shard_answers_step (acc.reverse.map Prod.fst, acc.reverse.map Prod.snd) =
        ((spec_pack_loop recs acc).reverse.map Prod.fst,
         (spec_pack_loop recs acc).reverse.map Prod.snd) := by
  induction recs with
  | nil => intro acc _; rfl
  | cons p rest ih =>
    intro acc hacc
    match acc with
    | b :: acc' =>
      have hstep : shard_answers_step
          ((b :: acc').reverse.map Prod.fst, (b :: acc').reverse.map Prod.snd) p =
          if b.2 + p.2 ≤ MAX_ANSWER_LIST_BYTE_SIZE then
            (((b.1 ++ [p.1], b.2 + p.2) :: acc').reverse.map Prod.fst,
             ((b.1 ++ [p.1], b.2 + p.2) :: acc').reverse.map Prod.snd)
          else
            ((([p.1], p.2) :: b :: acc').reverse.map Prod.fst,
             (([p.1], p.2) :: b :: acc').reverse.map Prod.snd) := by
        by_cases hc : b.2 + p.2 ≤ MAX_ANSWER_LIST_BYTE_SIZE <;>
          simp [shard_answers_step, hc, List.getLastD_concat, List.dropLast_concat]
      rw [List.foldl_cons, hstep]
      by_cases hc : b.2 + p.2 ≤ MAX_ANSWER_LIST_BYTE_SIZE
      · rw [if_pos hc, ih _ (by simp)]
        simp [spec_pack_loop, hc]
      · rw [if_neg hc, ih _ (by simp)]
        simp [spec_pack_loop, hc]

instance : IsTotal (α × Nat) (fun p q => p.2 ≤ q.2) :=
  ⟨fun p q => Nat.le_total p.2 q.2⟩

instance : IsTrans (α × Nat) (fun p q => p.2 ≤ q.2) :=
  ⟨fun _ _ _ h h2 => Nat.le_trans h h2⟩

theorem answer_size_pairs_sorted (sz : α → Nat) (new_answer_list : List α) :
    List.Sorted (fun p q : α × Nat => p.2 ≤ q.2) (answer_size_pairs sz new_answer_list) :=
  List.sorted_insertionSort _ _

theorem answer_size_pairs_perm (sz : α → Nat) (new_answer_list : List α) :
    (answer_size_pairs sz new_answer_list).Perm
      (new_answer_list.map (fun a => (a, sz a))) :=
  List.perm_insertionSort _ _

theorem answer_size_pairs_snd (sz : α → Nat) (new_answer_list : List α) :
    ∀ p ∈ answer_size_pairs sz new_answer_list, p.2 = sz p.1 := by
  intro p hp
  have hp' : p ∈ new_answer_list.map (fun a => (a, sz a)) :=
    (answer_size_pairs_perm sz new_answer_list).mem_iff.mp hp
  obtain ⟨a, _, rfl⟩ := List.mem_map.mp hp'
  rfl

theorem answer_size_pairs_fst_perm (sz : α → Nat) (new_answer_list : List α) :
    ((answer_size_pairs sz new_answer_list).map Prod.fst).Perm new_answer_list := by
  have h := (answer_size_pairs_perm sz new_answer_list).map Prod.fst
  rw [List.map_map] at h
  have hmap : List.map (Prod.fst ∘ fun a => (a, sz a)) new_answer_list =
      new_answer_list := by
    have hid : ∀ a ∈ new_answer_list, (Prod.fst ∘ fun a => (a, sz a)) a = id a :=
      fun a _ => rfl
    rw [List.map_congr_left hid, List.map_id]
  rwa [hmap] at h

/-- C1: `_shard_answers` first sorts the new records ascending by estimated
size, then greedily appends each to the last bucket when it fits within
`_MAX_ANSWER_LIST_BYTE_SIZE` and otherwise opens a new bucket, starting from
one bucket holding a copy of the tail records with the tail size; the
returned list pair is exactly the bucket/size decomposition of this
procedure. -/
theorem shard_answers_matches_spec_pack (sz : α → Nat) (tail_records : List α)
    (tail_size : Nat) (new_records : List α) :
    shard_answers sz tail_records tail_size new_records =
      ((spec_pack sz tail_records tail_size new_records).map Prod.fst,
       (spec_pack sz tail_records tail_size new_records).map Prod.snd) ∧
    List.Sorted (fun p q : α × Nat => p.2 ≤ q.2)
      (answer_size_pairs sz new_records) ∧
    (answer_size_pairs sz new_records).Perm
      (new_records.map (fun a => (a, sz a))) := by
  refine ⟨?_, answer_size_pairs_sorted sz new_records,
    answer_size_pairs_perm sz new_records⟩
  have h := spec_pack_loop_foldl (α := α) (answer_size_pairs sz new_records)
    [(tail_records, tail_size)] (by simp)
  simpa [shard_answers, spec_pack] using h

theorem shard_answers_eq_spec_pack (sz : α → Nat) (tail_records : List α)
    (tail_size : Nat) (new_records : List α) :
    shard_answers sz tail_records tail_size new_records =
      ((spec_pack sz tail_records tail_size new_records).map Prod.fst,
       (spec_pack sz tail_records tail_size new_records).map Prod.snd) := by
  have h := spec_pack_loop_foldl (α := α) (answer_size_pairs sz new_records)
    [(tail_records, tail_size)] (by simp)
  simpa [shard_answers, spec_pack] using h

theorem spec_pack_loop_ne_nil (recs : List (α × Nat)) :
    ∀ acc : List (List α × Nat), acc ≠ [] → spec_pack_loop recs acc ≠ [] := by
  induction recs with
  | nil => intro acc h; simpa [spec_pack_loop] using h
  | cons p rest ih =>
    intro acc hacc
    match acc with
    | b :: acc' =>
      by_cases hc : b.2 + p.2 ≤ MAX_ANSWER_LIST_BYTE_SIZE
      · simpa [spec_pack_loop, hc] using ih _ (by simp)
      · simpa [spec_pack_loop, hc] using ih _ (by simp)

theorem spec_pack_loop_flatten (recs : List (α × Nat)) :
    ∀ acc : List (List α × Nat), acc ≠ [] →
      ((spec_pack_loop recs acc).reverse.map Prod.fst).flatten =
        (acc.reverse.map Prod.fst).flatten ++ recs.map Prod.fst := by
  induction recs with
  | nil => intro acc _; simp [spec_pack_loop]
  | cons p rest ih =>
    intro acc hacc
    match acc with
    | b :: acc' =>
      by_cases hc : b.2 + p.2 ≤ MAX_ANSWER_LIST_BYTE_SIZE
      · rw [show spec_pack_loop (p :: rest) (b :: acc') =
            spec_pack_loop rest ((b.1 ++ [p.1], b.2 + p.2) :: acc') from by
          simp [spec_pack_loop, hc]]
        rw [ih _ (by simp)]
        simp
      · rw [show spec_pack_loop (p :: rest) (b :: acc') =
            spec_pack_loop rest (([p.1], p.2) :: b :: acc') from by
          simp [spec_pack_loop, hc]]
        rw [ih _ (by simp)]
        simp

theorem spec_pack_loop_first_bucket (sz : α → Nat) (recs : List (α × Nat)) :
    (∀ p ∈ recs, p.2 = sz p.1) →
    ∀ (acc : List (List α × Nat)) (tb : List α × Nat),
      ∃ extra : List (α × Nat), (∀ p ∈ extra, p.2 = sz p.1) ∧
        (spec_pack_loop recs (acc ++ [tb])).reverse.headD ([], 0) =
          (tb.1 ++ extra.map Prod.fst, tb.2 + (extra.map Prod.snd).sum) := by
  induction recs with
  | nil =>
    intro _ acc tb
    exact ⟨[], by simp, by simp [spec_pack_loop]⟩
  | cons p rest ih =>
    intro hs acc tb
    have hp : p.2 = sz p.1 := hs p (List.mem_cons_self p rest)
    have hs' : ∀ q ∈ rest, q.2 = sz q.1 := fun q hq => hs q (List.mem_cons_of_mem p hq)
    match acc with
    | [] =>
      by_cases hc : tb.2 + p.2 ≤ MAX_ANSWER_LIST_BYTE_SIZE
      · obtain ⟨extra, hex, heq⟩ := ih hs' [] (tb.1 ++ [p.1], tb.2 + p.2)
        refine ⟨p :: extra, ?_, ?_⟩
        · intro q hq
          rcases List.mem_cons.mp hq with rfl | hq
          · exact hp
          · exact hex q hq
        · rw [show spec_pack_loop (p :: rest) ([] ++ [tb]) =
              spec_pack_loop rest ([] ++ [(tb.1 ++ [p.1], tb.2 + p.2)]) from by
            simp [spec_pack_loop, hc]]
          rw [heq]
          simp [Nat.add_assoc]
      · obtain ⟨extra, hex, heq⟩ := ih hs' [([p.1], p.2)] tb
        refine ⟨extra, hex, ?_⟩
        rw [show spec_pack_loop (p :: rest) ([] ++ [tb]) =
            spec_pack_loop rest ([([p.1], p.2)] ++ [tb]) from by
          simp [spec_pack_loop, hc]]
        exact heq
    | a :: acc₂ =>
      by_cases hc : a.2 + p.2 ≤ MAX_ANSWER_LIST_BYTE_SIZE
      · obtain ⟨extra, hex, heq⟩ := ih hs' ((a.1 ++ [p.1], a.2 + p.2) :: acc₂) tb
        refine ⟨extra, hex, ?_⟩
        rw [show spec_pack_loop (p :: rest) ((a :: acc₂) ++ [tb]) =
            spec_pack_loop rest (((a.1 ++ [p.1], a.2 + p.2) :: acc₂) ++ [tb]) from by
          simp [spec_pack_loop, hc]]
        exact heq
      · obtain ⟨extra, hex, heq⟩ := ih hs' (([p.1], p.2) :: a :: acc₂) tb
        refine ⟨extra, hex, ?_⟩
        rw [show spec_pack_loop (p :: rest) ((a :: acc₂) ++ [tb]) =
            spec_pack_loop rest ((([p.1], p.2) :: a :: acc₂) ++ [tb]) from by
          simp [spec_pack_loop, hc]]
        exact heq

theorem spec_pack_loop_capacity (sz : α → Nat) (recs : List (α × Nat)) :
    (∀ p ∈ recs, p.2 = sz p.1) →
    ∀ acc : List (List α × Nat),
      (∀ q ∈ acc, q.2 ≤ MAX_ANSWER_LIST_BYTE_SIZE ∨
        ∃ a, q.1 = [a] ∧ q.2 = sz a ∧ MAX_ANSWER_LIST_BYTE_SIZE < sz a) →
      ∀ q ∈ spec_pack_loop recs acc,
        q.2 ≤ MAX_ANSWER_LIST_BYTE_SIZE ∨
          ∃ a, q.1 = [a] ∧ q.2 = sz a ∧ MAX_ANSWER_LIST_BYTE_SIZE < sz a := by
  induction recs with
  | nil => intro _ acc hacc; simpa [spec_pack_loop] using hacc
  | cons p rest ih =>
    intro hs acc hacc
    have hp : p.2 = sz p.1 := hs p (List.mem_cons_self p rest)
    have hs' : ∀ q ∈ rest, q.2 = sz q.1 := fun q hq => hs q (List.mem_cons_of_mem p hq)
    have hpd : p.2 ≤ MAX_ANSWER_LIST_BYTE_SIZE ∨
        ∃ a, ([p.1] : List α) = [a] ∧ p.2 = sz a ∧ MAX_ANSWER_LIST_BYTE_SIZE < sz a := by
      by_cases hple : p.2 ≤ MAX_ANSWER_LIST_BYTE_SIZE
      · exact Or.inl hple
      · exact Or.inr ⟨p.1, rfl, hp, by omega⟩
    match acc with
    | [] =>
      rw [show spec_pack_loop (p :: rest) ([] : List (List α × Nat)) =
          spec_pack_loop rest [([p.1], p.2)] from by simp [spec_pack_loop]]
      refine ih hs' _ ?_
      intro q hq
      rcases List.mem_cons.mp hq with rfl | hq
      · exact hpd
      · simp at hq
    | b :: acc₂ =>
      by_cases hc : b.2 + p.2 ≤ MAX_ANSWER_LIST_BYTE_SIZE
      · rw [show spec_pack_loop (p :: rest) (b :: acc₂) =
            spec_pack_loop rest ((b.1 ++ [p.1], b.2 + p.2) :: acc₂) from by
          simp [spec_pack_loop, hc]]
        refine ih hs' _ ?_
        intro q hq
        rcases List.mem_cons.mp hq with rfl | hq
        · exact Or.inl hc
        · exact hacc q (List.mem_cons_of_mem b hq)
      · rw [show spec_pack_loop (p :: rest) (b :: acc₂) =
            spec_pack_loop rest (([p.1], p.2) :: b :: acc₂) from by
          simp [spec_pack_loop, hc]]
        refine ih hs' _ ?_
        intro q hq
        rcases List.mem_cons.mp hq with rfl | hq
        · exact hpd
        · exact hacc q hq

theorem spec_pack_loop_big_mem (sz : α → Nat) (a : α)
    (hbig : MAX_ANSWER_LIST_BYTE_SIZE < sz a) (recs : List (α × Nat)) :
    (∀ p ∈ recs, p.2 = sz p.1) →
    ∀ acc : List (List α × Nat),
      ((a, sz a) ∈ recs ∨ ([a], sz a) ∈ acc) →
      ([a], sz a) ∈ spec_pack_loop recs acc := by
  induction recs with
  | nil =>
    intro _ acc h
    rcases h with h | h
    · simp at h
    · simpa [spec_pack_loop] using h
  | cons p rest ih =>
    intro hs acc hmem
    have hp : p.2 = sz p.1 := hs p (List.mem_cons_self p rest)
    have hs' : ∀ q ∈ rest, q.2 = sz q.1 := fun q hq => hs q (List.mem_cons_of_mem p hq)
    match acc with
    | [] =>
      rw [show spec_pack_loop (p :: rest) ([] : List (List α × Nat)) =
          spec_pack_loop rest [([p.1], p.2)] from by simp [spec_pack_loop]]
      rcases hmem with hmem | hmem
      · rcases List.mem_cons.mp hmem with heq | hmem
        · refine ih hs' _ (Or.inr ?_)
          rw [← heq]
          simp
        · exact ih hs' _ (Or.inl hmem)
      · simp at hmem
    | b :: acc₂ =>
      by_cases hc : b.2 + p.2 ≤ MAX_ANSWER_LIST_BYTE_SIZE
      · rw [show spec_pack_loop (p :: rest) (b :: acc₂) =
            spec_pack_loop rest ((b.1 ++ [p.1], b.2 + p.2) :: acc₂) from by
          simp [spec_pack_loop, hc]]
        refine ih hs' _ ?_
        rcases hmem with hmem | hmem
        · rcases List.mem_cons.mp hmem with heq | hmem
          · exfalso
            have hp2 : p.2 = sz a := (congrArg Prod.snd heq).symm
            omega
          · exact Or.inl hmem
        · rcases List.mem_cons.mp hmem with heq | hmem
          · exfalso
            have hb2 : b.2 = sz a := (congrArg Prod.snd heq).symm
            omega
          · exact Or.inr (List.mem_cons_of_mem _ hmem)
      · rw [show spec_pack_loop (p :: rest) (b :: acc₂) =
            spec_pack_loop rest (([p.1], p.2) :: b :: acc₂) from by
          simp [spec_pack_loop, hc]]
        refine ih hs' _ ?_
        rcases hmem with hmem | hmem
        · rcases List.mem_cons.mp hmem with heq | hmem
          · refine Or.inr ?_
            rw [← heq]
            simp
          · exact Or.inl hmem
        · exact Or.inr (List.mem_cons_of_mem _ hmem)

theorem spec_pack_loop_big_alone (sz : α → Nat) (a : α)
    (hbig : MAX_ANSWER_LIST_BYTE_SIZE < sz a) (recs : List (α × Nat)) :
    (∀ p ∈ recs, p.2 = sz p.1) →
    ∀ acc : List (List α × Nat),
      (∀ q ∈ acc.dropLast, a ∈ q.1 → q = ([a], sz a)) →
      ∀ q ∈ (spec_pack_loop recs acc).dropLast, a ∈ q.1 → q = ([a], sz a) := by
  induction recs with
  | nil => intro _ acc hacc; simpa [spec_pack_loop] using hacc
  | cons p rest ih =>
    intro hs acc hacc
    have hp : p.2 = sz p.1 := hs p (List.mem_cons_self p rest)
    have hs' : ∀ q ∈ rest, q.2 = sz q.1 := fun q hq => hs q (List.mem_cons_of_mem p hq)
    match acc with
    | [] =>
      rw [show spec_pack_loop (p :: rest) ([] : List (List α × Nat)) =
          spec_pack_loop rest [([p.1], p.2)] from by simp [spec_pack_loop]]
      refine ih hs' _ ?_
      simp
    | b :: acc₂ =>
      by_cases hc : b.2 + p.2 ≤ MAX_ANSWER_LIST_BYTE_SIZE
      · rw [show spec_pack_loop (p :: rest) (b :: acc₂) =
            spec_pack_loop rest ((b.1 ++ [p.1], b.2 + p.2) :: acc₂) from by
          simp [spec_pack_loop, hc]]
        refine ih hs' _ ?_
        match acc₂ with
        | [] => simp
        | c :: acc₃ =>
          intro q hq ha
          rw [List.dropLast_cons₂] at hq
          rcases List.mem_cons.mp hq with rfl | hq
          · exfalso
            rcases List.mem_append.mp ha with ha | ha
            · have hb := hacc b (by rw [List.dropLast_cons₂]; exact List.mem_cons_self _ _) ha
              have hb2 : b.2 = sz a := congrArg Prod.snd hb
              omega
            · have hpa : p.1 = a := by have h2 := ha; simp at h2; exact h2.symm
              rw [hpa] at hp
              omega
          · exact hacc q (by rw [List.dropLast_cons₂]; exact List.mem_cons_of_mem b hq) ha
      · rw [show spec_pack_loop (p :: rest) (b :: acc₂) =
            spec_pack_loop rest (([p.1], p.2) :: b :: acc₂) from by
          simp [spec_pack_loop, hc]]
        refine ih hs' _ ?_
        intro q hq ha
        rw [List.dropLast_cons₂] at hq
        rcases List.mem_cons.mp hq with rfl | hq
        · have hpa : p.1 = a := by have h2 := ha; simp at h2; exact h2.symm
          rw [hpa, hp, hpa]
        · exact hacc q hq ha

theorem zip_map_fst_snd (l : List (List α × Nat)) :
    List.zip (l.map Prod.fst) (l.map Prod.snd) = l := by
  induction l with
  | nil => rfl
  | cons p r ih => simp [ih]

theorem reverse_drop_one (l : List (List α × Nat)) :
    l.reverse.drop 1 = l.dropLast.reverse := by
  induction l using List.reverseRecOn with
  | nil => rfl
  | append_singleton l a _ => simp

/-- C3: when the tail size is at most 900000 bytes, every bucket returned by
`_shard_answers` has cumulative size at most 900000, except possibly a bucket
holding exactly one record whose own estimated size exceeds 900000. -/
theorem shard_answers_capacity (sz : α → Nat) (tail_records : List α)
    (tail_size : Nat) (new_records : List α)
    (hts : tail_size ≤ MAX_ANSWER_LIST_BYTE_SIZE) :
    ∀ q ∈ List.zip (shard_answers sz tail_records tail_size new_records).1
        (shard_answers sz tail_records tail_size new_records).2,
      q.2 ≤ MAX_ANSWER_LIST_BYTE_SIZE ∨
        ∃ a, q.1 = [a] ∧ q.2 = sz a ∧ MAX_ANSWER_LIST_BYTE_SIZE < sz a := by
  intro q hq
  rw [shard_answers_eq_spec_pack] at hq
  simp only [zip_map_fst_snd] at hq
  have hq' : q ∈ spec_pack_loop (answer_size_pairs sz new_records)
      [(tail_records, tail_size)] := by
    rw [spec_pack] at hq
    exact List.mem_reverse.mp hq
  refine spec_pack_loop_capacity sz _ (answer_size_pairs_snd sz new_records) _ ?_ q hq'
  intro b hb
  rcases List.mem_cons.mp hb with rfl | hb
  · exact Or.inl hts
  · simp at hb

/-- C3 witness: the capacity dichotomy at the first bucket of a concrete
packing that also contains an oversized record. -/
theorem shard_answers_capacity_witness :
    (15 : Nat) ≤ MAX_ANSWER_LIST_BYTE_SIZE ∨
      ∃ a : Nat, ([7, 5] : List Nat) = [a] ∧ 15 = a ∧
        MAX_ANSWER_LIST_BYTE_SIZE < a :=
  shard_answers_capacity (fun n => n) [7] 10 [1000000, 5] (by decide)
    ([7, 5], 15) (by decide)

/-- C5: a new record whose own estimated size exceeds 900000 bytes ends up in
a bucket of its own (the bucket `[a]` appears among the returned buckets, and
every non-tail bucket containing the record is exactly `[a]`); the packer is a
total function, so it never fails on such a record. -/
theorem oversized_record_isolated (sz : α → Nat) (a : α) (tail_records : List α)
    (tail_size : Nat) (new_records : List α)
    (hbig : MAX_ANSWER_LIST_BYTE_SIZE < sz a) (ha : a ∈ new_records) :
    [a] ∈ (shard_answers sz tail_records tail_size new_records).1 ∧
    ∀ bl ∈ (shard_answers sz tail_records tail_size new_records).1.drop 1,
      a ∈ bl → bl = [a] := by
  have hpairs : (a, sz a) ∈ answer_size_pairs sz new_records := by
    refine (answer_size_pairs_perm sz new_records).mem_iff.mpr ?_
    exact List.mem_map_of_mem _ ha
  have hmem : ([a], sz a) ∈ spec_pack_loop (answer_size_pairs sz new_records)
      [(tail_records, tail_size)] :=
    spec_pack_loop_big_mem sz a hbig _ (answer_size_pairs_snd sz new_records) _
      (Or.inl hpairs)
  rw [shard_answers_eq_spec_pack]
  constructor
  · simp only [spec_pack]
    exact List.mem_map_of_mem Prod.fst (List.mem_reverse.mpr hmem)
  · intro bl hbl hab
    simp only [spec_pack] at hbl
    rw [← List.map_drop, reverse_drop_one] at hbl
    obtain ⟨q, hq, rfl⟩ := List.mem_map.mp hbl
    have hq' : q ∈ (spec_pack_loop (answer_size_pairs sz new_records)
        [(tail_records, tail_size)]).dropLast := List.mem_reverse.mp hq
    have := spec_pack_loop_big_alone sz a hbig _
      (answer_size_pairs_snd sz new_records) _ (by simp) q hq' hab
    rw [this]

/-- C5 witness: a 1000001-byte record among smaller ones is isolated. -/
theorem oversized_record_isolated_witness :
    [1000001] ∈ (shard_answers (fun n => n) [7] 10 [1000001, 5]).1 ∧
    ∀ bl ∈ (shard_answers (fun n => n) [7] 10 [1000001, 5]).1.drop 1,
      1000001 ∈ bl → bl = [1000001] :=
  oversized_record_isolated (fun n => n) 1000001 [7] 10 [1000001, 5]
    (by decide) (by decide)

/-- Shard entity of `StateAnswersModel`, restricted to one
(exploration_id, exploration_version, state_name) key; the key fields and
`schema_version` are omitted because they are constant across the key's
shards.  `shard_count` is populated only on the master shard (shard 0),
matching the `required=False` NDB property. -/
structure StateAnswersModel (α : Type) where
  shard_id : Nat
  interaction_id : String
  shard_count : Option Nat
  accumulated_answer_json_size_bytes : Nat
  submitted_answer_list : List α

/-- Datastore contents for one key: a map from shard id to the stored
entity, `none` when no entity with that id exists. -/
def StateAnswersStore (α : Type) : Type := Nat → Option (StateAnswersModel α)

/-- Persisting a single entity (one element of the `put_multi` list). -/
def put_model (st : StateAnswersStore α) (e : StateAnswersModel α) :
    StateAnswersStore α :=
  fun i => if i = e.shard_id then some e else st i

/-- Model of `put_multi`: persist a list of entities in order. -/
def put_multi (st : StateAnswersStore α) (es : List (StateAnswersModel α)) :
    StateAnswersStore α :=
  es.foldl put_model st

/-- The fresh master shard synthesized by `_insert_submitted_answers_unsafe`
when no master shard exists (`shard_id=0`, `shard_count=0`, empty answer
list, `accumulated_answer_json_size_bytes` left at its default 0). -/
def fresh_main_shard (interaction_id : String) : StateAnswersModel α :=
  { shard_id := 0, interaction_id := interaction_id, shard_count := some 0,
    accumulated_answer_json_size_bytes := 0, submitted_answer_list := [] }

/-- The new shard entities created by the `for i in xrange(1, len(...))` loop
of `_insert_submitted_answers_unsafe`: entity `j` (0-based here) is shard
`old_count + (j + 1)` holding bucket `j + 1` of the packing. -/
def new_shard_entities (interaction_id : String) (old_count : Nat)
    (lists : List (List α)) (sizes : List Nat) : List (StateAnswersModel α) :=
  (List.range (lists.length - 1)).map (fun j =>
    { shard_id := old_count + (j + 1), interaction_id := interaction_id,
      shard_count := none,
      accumulated_answer_json_size_bytes := sizes.getD (j + 1) 0,
      submitted_answer_list := lists.getD (j + 1) [] })

/-- Body of `_insert_submitted_answers_unsafe` after the main and last shards
have been resolved: pack the new answers onto the last shard, update the last
shard if its size changed, create the new shards, update the master's
`shard_count` if it changed, and `put_multi` exactly the mutated or new
entities (when the last shard is the master, both updates land on the single
shared entity). -/
def entities_to_put (sz : α → Nat) (interaction_id : String)
    (main_shard : StateAnswersModel α) (old_count : Nat)
    (last_shard : StateAnswersModel α) (new_list : List α) :
    List (StateAnswersModel α) :=
  let packed := shard_answers sz last_shard.submitted_answer_list
      last_shard.accumulated_answer_json_size_bytes new_list
  let lists := packed.1
  let sizes := packed.2
  let new_shard_count := old_count + lists.length - 1
  let last_shard_is_main := old_count == 0
  let last_shard_updated :=
    !(sizes.headD 0 == last_shard.accumulated_answer_json_size_bytes)
  let updated_last_shard :=
    if last_shard_updated then
      { last_shard with
          submitted_answer_list := lists.headD [],
          accumulated_answer_json_size_bytes := sizes.headD 0 }
    else last_shard
  let new_shards := new_shard_entities interaction_id old_count lists sizes
  let main_shard_updated := !(old_count == new_shard_count)
  let updated_main_shard :=
    if last_shard_is_main then
      let m :=
        if last_shard_updated then
          { main_shard with
              submitted_answer_list := lists.headD [],
              accumulated_answer_json_size_bytes := sizes.headD 0 }
        else main_shard
      if main_shard_updated then { m with shard_count := some new_shard_count } else m
    else
      if main_shard_updated then { main_shard with shard_count := some new_shard_count }
      else main_shard
  if last_shard_is_main then
    new_shards ++ (if main_shard_updated || last_shard_updated
      then [updated_main_shard] else [])
  else
    new_shards ++ (if main_shard_updated then [updated_main_shard] else []) ++
      (if last_shard_updated then [updated_last_shard] else [])

def insert_core (sz : α → Nat) (interaction_id : String) (st : StateAnswersStore α)
    (main_shard : StateAnswersModel α) (old_count : Nat)
    (last_shard : StateAnswersModel α) (new_list : List α) : StateAnswersStore α :=
  put_multi st
    (entities_to_put sz interaction_id main_shard old_count last_shard new_list)

/-- Embedding of `insert_submitted_answers` on one key (the transactional wrapper around
`_insert_submitted_answers_unsafe`; the transaction itself is the black-box
store, so one call is one atomic state transition).  Returns `none` exactly
when the Python body would raise before `put_multi`: the master shard exists
but carries no `shard_count` (the later `shard_count + ... - 1` arithmetic
would raise a TypeError), or `shard_count > 0` but the tail shard is missing
(attribute access on `None` would raise). -/
def insert_submitted_answers (sz : α → Nat) (interaction_id : String)
    (st : StateAnswersStore α) (new_list : List α) :
    Option (StateAnswersStore α) :=
  match st 0 with
  | none =>
    let m := fresh_main_shard (α := α) interaction_id
    some (insert_core sz interaction_id st m 0 m new_list)
  | some main_shard =>
    match main_shard.shard_count with
    | none => none
    | some c =>
      if 0 < c then
        match st c with
        | none => none
        | some last_shard =>
          some (insert_core sz interaction_id st main_shard c last_shard new_list)
      else some (insert_core sz interaction_id st main_shard c main_shard new_list)

/-- The (records, size) pair of the tail shard that an insert on `st` packs
onto, mirroring the main/last shard resolution of
`_insert_submitted_answers_unsafe`; the `([], 0)` fallbacks correspond to the
failing branches of `insert_submitted_answers`. -/
def tail_shard_data (st : StateAnswersStore α) : List α × Nat :=
  match st 0 with
  | none => ([], 0)
  | some m =>
    match m.shard_count with
    | none => ([], 0)
    | some c =>
      if 0 < c then
        match st c with
        | none => ([], 0)
        | some last_shard =>
          (last_shard.submitted_answer_list,
           last_shard.accumulated_answer_json_size_bytes)
      else (m.submitted_answer_list, m.accumulated_answer_json_size_bytes)

/-- Number of buckets the packer produces for an insert of `new_list` on
`st` (the first bucket is the updated tail shard; the remaining ones become
new shards). -/
def insert_bucket_count (sz : α → Nat) (st : StateAnswersStore α)
    (new_list : List α) : Nat :=
  (shard_answers sz (tail_shard_data st).1 (tail_shard_data st).2 new_list).1.length

/-- Concatenation, in shard-index order 0..shard_count, of the answer lists
of all shards of the key (the flattening of `get_all_models`); empty when no
master shard exists. -/
def read_all_records (st : StateAnswersStore α) : List α :=
  match st 0 with
  | none => []
  | some m =>
    ((List.range (m.shard_count.getD 0 + 1)).map (fun i =>
      match st i with
      | none => []
      | some e => e.submitted_answer_list)).flatten

/-- The store before any answer has been submitted for the key. -/
def empty_store : StateAnswersStore α := fun _ => none

/-- A sequence of `insert_submitted_answers` calls starting from the empty
store; `none` as soon as one call fails. -/
def apply_batches (sz : α → Nat) (interaction_id : String)
    (batches : List (List α)) : Option (StateAnswersStore α) :=
  batches.foldlM (fun st b => insert_submitted_answers sz interaction_id st b)
    empty_store

/-- The master's shard count, read off the store (0 when no master shard
exists). -/
def shard_count_data (st : StateAnswersStore α) : Nat :=
  match st 0 with
  | none => 0
  | some m => m.shard_count.getD 0

/-- Invariant of all stores reachable by successful inserts from the empty
store: every stored entity sits at the index equal to its `shard_id`, and
either the key is untouched, or the master shard exists, knows the exact
number of extra shards, all shards 0..shard_count exist, and nothing exists
above shard_count. -/
def StoreInv (st : StateAnswersStore α) : Prop :=
  (∀ i e, st i = some e → e.shard_id = i) ∧
  ((∀ i, st i = none) ∨
    ∃ n m, st 0 = some m ∧ m.shard_count = some n ∧
      (∀ i, i ≤ n → (st i).isSome) ∧ (∀ i, n < i → st i = none))

theorem put_model_apply (st : StateAnswersStore α) (e : StateAnswersModel α) (i : Nat) :
    put_model st e i = if i = e.shard_id then some e else st i := rfl

theorem put_multi_append (st : StateAnswersStore α)
    (es fs : List (StateAnswersModel α)) :
    put_multi st (es ++ fs) = put_multi (put_multi st es) fs := by
  simp [put_multi, List.foldl_append]

theorem put_multi_apply_of_ne (es : List (StateAnswersModel α)) :
    ∀ (st : StateAnswersStore α) (i : Nat), (∀ e ∈ es, e.shard_id ≠ i) →
      put_multi st es i = st i := by
  induction es with
  | nil => intro st i _; rfl
  | cons e es ih =>
    intro st i h
    have h1 : put_multi st (e :: es) = put_multi (put_model st e) es := rfl
    rw [h1, ih _ _ (fun x hx => h x (List.mem_cons_of_mem e hx)), put_model_apply,
      if_neg (fun heq => h e (List.mem_cons_self e es) heq.symm)]

theorem put_multi_range_apply (c : Nat) (g : Nat → StateAnswersModel α)
    (hg : ∀ j, (g j).shard_id = c + (j + 1)) :
    ∀ (K : Nat) (st : StateAnswersStore α) (i : Nat),
      put_multi st ((List.range K).map g) i =
        if c < i ∧ i ≤ c + K then some (g (i - c - 1)) else st i := by
  intro K
  induction K with
  | zero =>
    intro st i
    rw [if_neg (by omega)]
    rfl
  | succ K ih =>
    intro st i
    rw [List.range_succ, List.map_append, put_multi_append]
    have h0 : List.map g [K] = [g K] := rfl
    rw [h0]
    have h1 : put_multi (put_multi st ((List.range K).map g)) [g K] i =
        if i = (g K).shard_id then some (g K)
        else put_multi st ((List.range K).map g) i := rfl
    rw [h1, hg K]
    by_cases hi : i = c + (K + 1)
    · rw [if_pos hi, if_pos (by omega)]
      have : i - c - 1 = K := by omega
      rw [this]
    · rw [if_neg hi, ih st i]
      by_cases hle : c < i ∧ i ≤ c + K
      · rw [if_pos hle, if_pos (by omega)]
      · rw [if_neg hle, if_neg (by omega)]

theorem new_shard_entities_apply (iid : String) (c : Nat) (lists : List (List α))
    (sizes : List Nat) (st : StateAnswersStore α) (i : Nat) :
    put_multi st (new_shard_entities iid c lists sizes) i =
      if c < i ∧ i ≤ c + (lists.length - 1) then
        some { shard_id := i, interaction_id := iid, shard_count := none,
               accumulated_answer_json_size_bytes := sizes.getD (i - c) 0,
               submitted_answer_list := lists.getD (i - c) [] }
      else st i := by
  rw [new_shard_entities,
    put_multi_range_apply c _ (fun j => rfl) (lists.length - 1) st i]
  by_cases h : c < i ∧ i ≤ c + (lists.length - 1)
  · rw [if_pos h, if_pos h]
    have h2 : i - c - 1 + 1 = i - c := by omega
    have h1 : c + (i - c) = i := by omega
    rw [h2, h1]
  · rw [if_neg h, if_neg h]

theorem shard_answers_fst (sz : α → Nat) (L : List α) (S : Nat) (new : List α) :
    (shard_answers sz L S new).1 = (spec_pack sz L S new).map Prod.fst :=
  congrArg Prod.fst (shard_answers_eq_spec_pack sz L S new)

theorem shard_answers_snd (sz : α → Nat) (L : List α) (S : Nat) (new : List α) :
    (shard_answers sz L S new).2 = (spec_pack sz L S new).map Prod.snd :=
  congrArg Prod.snd (shard_answers_eq_spec_pack sz L S new)

theorem spec_pack_ne_nil (sz : α → Nat) (L : List α) (S : Nat) (new : List α) :
    spec_pack sz L S new ≠ [] := by
  rw [spec_pack]
  simpa using spec_pack_loop_ne_nil (answer_size_pairs sz new) [(L, S)] (by simp)

theorem shard_answers_length_pos (sz : α → Nat) (L : List α) (S : Nat) (new : List α) :
    1 ≤ (shard_answers sz L S new).1.length := by
  rw [shard_answers_fst]
  simpa [Nat.succ_le_iff, List.length_pos] using spec_pack_ne_nil sz L S new

theorem shard_answers_len_eq (sz : α → Nat) (L : List α) (S : Nat) (new : List α) :
    (shard_answers sz L S new).2.length = (shard_answers sz L S new).1.length := by
  rw [shard_answers_fst, shard_answers_snd]
  simp

theorem shard_answers_flatten (sz : α → Nat) (L : List α) (S : Nat) (new : List α) :
    (shard_answers sz L S new).1.flatten =
      L ++ (answer_size_pairs sz new).map Prod.fst := by
  rw [shard_answers_fst, spec_pack]
  have h := spec_pack_loop_flatten (answer_size_pairs sz new) [(L, S)] (by simp)
  simpa using h

theorem headD_map_fst (l : List (List α × Nat)) (h : l ≠ []) :
    (l.map Prod.fst).headD [] = (l.headD ([], 0)).1 := by
  cases l with
  | nil => exact absurd rfl h
  | cons q t => rfl

theorem headD_map_snd (l : List (List α × Nat)) (h : l ≠ []) :
    (l.map Prod.snd).headD 0 = (l.headD ([], 0)).2 := by
  cases l with
  | nil => exact absurd rfl h
  | cons q t => rfl

theorem shard_answers_head (sz : α → Nat) (L : List α) (S : Nat) (new : List α) :
    ∃ extra : List (α × Nat), (∀ p ∈ extra, p.2 = sz p.1) ∧
      (shard_answers sz L S new).1.headD [] = L ++ extra.map Prod.fst ∧
      (shard_answers sz L S new).2.headD 0 = S + (extra.map Prod.snd).sum := by
  obtain ⟨extra, hex, heq⟩ := spec_pack_loop_first_bucket sz (answer_size_pairs sz new)
    (answer_size_pairs_snd sz new) [] (L, S)
  have hpk : (spec_pack sz L S new).headD ([], 0) =
      (L ++ extra.map Prod.fst, S + (extra.map Prod.snd).sum) := by
    rw [spec_pack]
    simpa using heq
  refine ⟨extra, hex, ?_, ?_⟩
  · rw [shard_answers_fst, headD_map_fst _ (spec_pack_ne_nil sz L S new), hpk]
  · rw [shard_answers_snd, headD_map_snd _ (spec_pack_ne_nil sz L S new), hpk]

theorem shard_answers_head_of_size_eq (sz : α → Nat) (hpos : ∀ a, 0 < sz a)
    (L : List α) (S : Nat) (new : List α)
    (h : (shard_answers sz L S new).2.headD 0 = S) :
    (shard_answers sz L S new).1.headD [] = L := by
  obtain ⟨extra, hex, h1, h2⟩ := shard_answers_head sz L S new
  rw [h2] at h
  have hnil : extra = [] := by
    cases extra with
    | nil => rfl
    | cons p t =>
      exfalso
      have hp := hex p (List.mem_cons_self p t)
      have hp2 := hpos p.1
      have hsum : p.2 + ((t.map Prod.snd).sum) = 0 := by
        simpa [List.sum_cons] using (by omega :
          ((p :: t).map Prod.snd).sum = 0)
      omega
  rw [h1, hnil]
  simp

theorem shard_answers_trivial_imp_nil (sz : α → Nat) (hpos : ∀ a, 0 < sz a)
    (L : List α) (S : Nat) (new : List α)
    (hlen : (shard_answers sz L S new).1.length = 1)
    (hsz : (shard_answers sz L S new).2.headD 0 = S) :
    new = [] := by
  have hhead := shard_answers_head_of_size_eq sz hpos L S new hsz
  have hflat := shard_answers_flatten sz L S new
  obtain ⟨x, hx⟩ := List.length_eq_one.mp hlen
  rw [hx] at hflat hhead
  simp at hflat hhead
  rw [hhead] at hflat
  have hlen2 := congrArg List.length hflat
  simp at hlen2
  have hmapnil : new.map (fun a => (a, sz a)) = [] := by
    have hp := (answer_size_pairs_perm sz new).symm
    rw [hlen2] at hp
    exact hp.eq_nil
  exact List.map_eq_nil_iff.mp hmapnil

theorem insert_core_noop (sz : α → Nat) (iid : String) (st : StateAnswersStore α)
    (main_shard : StateAnswersModel α) (c : Nat) (last_shard : StateAnswersModel α)
    (new_list : List α)
    (hlen : (shard_answers sz last_shard.submitted_answer_list
        last_shard.accumulated_answer_json_size_bytes new_list).1.length = 1)
    (hsz : (shard_answers sz last_shard.submitted_answer_list
        last_shard.accumulated_answer_json_size_bytes new_list).2.headD 0 =
        last_shard.accumulated_answer_json_size_bytes) :
    insert_core sz iid st main_shard c last_shard new_list = st := by
  simp only [insert_core, entities_to_put, hlen, hsz, new_shard_entities]
  simp [put_multi]

/-- The value of the tail shard after an insert: answer list and size set to
the first packed bucket (equal to the old entity when the bucket is
unchanged). -/
def tail_entity (sz : α → Nat) (last_shard : StateAnswersModel α)
    (new_list : List α) : StateAnswersModel α :=
  { last_shard with
      submitted_answer_list := (shard_answers sz last_shard.submitted_answer_list
        last_shard.accumulated_answer_json_size_bytes new_list).1.headD [],
      accumulated_answer_json_size_bytes := (shard_answers sz
        last_shard.submitted_answer_list
        last_shard.accumulated_answer_json_size_bytes new_list).2.headD 0 }

/-- The value of the master shard after an insert: shard count advanced by
the number of new buckets, and, when the master is also the tail shard,
answer list and size set to the first packed bucket. -/
def master_entity (sz : α → Nat) (main_shard : StateAnswersModel α)
    (old_count : Nat) (last_shard : StateAnswersModel α) (new_list : List α) :
    StateAnswersModel α :=
  { main_shard with
      submitted_answer_list := if old_count = 0 then
          (shard_answers sz last_shard.submitted_answer_list
            last_shard.accumulated_answer_json_size_bytes new_list).1.headD []
        else main_shard.submitted_answer_list,
      accumulated_answer_json_size_bytes := if old_count = 0 then
          (shard_answers sz last_shard.submitted_answer_list
            last_shard.accumulated_answer_json_size_bytes new_list).2.headD 0
        else main_shard.accumulated_answer_json_size_bytes,
      shard_count := some (old_count +
        ((shard_answers sz last_shard.submitted_answer_list
          last_shard.accumulated_answer_json_size_bytes new_list).1.length - 1)) }

theorem entities_to_put_c0 (sz : α → Nat) (hpos : ∀ a, 0 < sz a) (iid : String)
    (main_shard last_shard : StateAnswersModel α) (new_list : List α)
    (hmc : main_shard.shard_count = some 0) (hlm : last_shard = main_shard)
    (hupd : ¬((shard_answers sz last_shard.submitted_answer_list
        last_shard.accumulated_answer_json_size_bytes new_list).1.length = 1 ∧
      (shard_answers sz last_shard.submitted_answer_list
        last_shard.accumulated_answer_json_size_bytes new_list).2.headD 0 =
        last_shard.accumulated_answer_json_size_bytes)) :
    entities_to_put sz iid main_shard 0 last_shard new_list =
      new_shard_entities iid 0
        (shard_answers sz last_shard.submitted_answer_list
          last_shard.accumulated_answer_json_size_bytes new_list).1
        (shard_answers sz last_shard.submitted_answer_list
          last_shard.accumulated_answer_json_size_bytes new_list).2 ++
      [master_entity sz main_shard 0 last_shard new_list] := by
  subst hlm
  have hlp := shard_answers_length_pos sz last_shard.submitted_answer_list
    last_shard.accumulated_answer_json_size_bytes new_list
  by_cases hlen1 : (shard_answers sz last_shard.submitted_answer_list
      last_shard.accumulated_answer_json_size_bytes new_list).1.length = 1
  · have hS : ¬((shard_answers sz last_shard.submitted_answer_list
        last_shard.accumulated_answer_json_size_bytes new_list).2.headD 0 =
        last_shard.accumulated_answer_json_size_bytes) :=
      fun h => hupd ⟨hlen1, h⟩
    simp [entities_to_put, master_entity, hlen1, hS, hmc, beq_iff_eq,
      -List.headD_eq_head?_getD]
  · have hML : ¬((0 : Nat) = (shard_answers sz last_shard.submitted_answer_list
        last_shard.accumulated_answer_json_size_bytes new_list).1.length - 1) := by
      omega
    by_cases hS : (shard_answers sz last_shard.submitted_answer_list
        last_shard.accumulated_answer_json_size_bytes new_list).2.headD 0 =
        last_shard.accumulated_answer_json_size_bytes
    · have hhead := shard_answers_head_of_size_eq sz hpos
        last_shard.submitted_answer_list
        last_shard.accumulated_answer_json_size_bytes new_list hS
      simp [entities_to_put, master_entity, hlen1, hS, hhead, hML, beq_iff_eq,
        -List.headD_eq_head?_getD]
    · simp [entities_to_put, master_entity, hlen1, hS, hML, beq_iff_eq,
        -List.headD_eq_head?_getD]

theorem entities_to_put_pos (sz : α → Nat) (iid : String)
    (main_shard last_shard : StateAnswersModel α) (c : Nat) (new_list : List α)
    (hc0 : c ≠ 0) :
    entities_to_put sz iid main_shard c last_shard new_list =
      new_shard_entities iid c
        (shard_answers sz last_shard.submitted_answer_list
          last_shard.accumulated_answer_json_size_bytes new_list).1
        (shard_answers sz last_shard.submitted_answer_list
          last_shard.accumulated_answer_json_size_bytes new_list).2 ++
      (if (shard_answers sz last_shard.submitted_answer_list
            last_shard.accumulated_answer_json_size_bytes new_list).1.length = 1
        then []
        else [{ main_shard with shard_count := some (c +
          ((shard_answers sz last_shard.submitted_answer_list
            last_shard.accumulated_answer_json_size_bytes new_list).1.length - 1)) }]) ++
      (if (shard_answers sz last_shard.submitted_answer_list
            last_shard.accumulated_answer_json_size_bytes new_list).2.headD 0 =
            last_shard.accumulated_answer_json_size_bytes
        then [] else [tail_entity sz last_shard new_list]) := by
  have hlp := shard_answers_length_pos sz last_shard.submitted_answer_list
    last_shard.accumulated_answer_json_size_bytes new_list
  by_cases hS : (shard_answers sz last_shard.submitted_answer_list
      last_shard.accumulated_answer_json_size_bytes new_list).2.headD 0 =
      last_shard.accumulated_answer_json_size_bytes <;>
    by_cases hlen1 : (shard_answers sz last_shard.submitted_answer_list
      last_shard.accumulated_answer_json_size_bytes new_list).1.length = 1 <;>
    first
    | (have hcc : c + (shard_answers sz last_shard.submitted_answer_list
          last_shard.accumulated_answer_json_size_bytes new_list).1.length - 1 = c := by
        omega
       simp [entities_to_put, tail_entity, hlen1, hS, hcc, hc0, beq_iff_eq,
         -List.headD_eq_head?_getD])
    | (have hne : ¬(c = c + (shard_answers sz last_shard.submitted_answer_list
          last_shard.accumulated_answer_json_size_bytes new_list).1.length - 1) := by
        omega
       have hsub : ¬((shard_answers sz last_shard.submitted_answer_list
          last_shard.accumulated_answer_json_size_bytes new_list).1.length - 1 = 0) := by
        omega
       have hcc : c + (shard_answers sz last_shard.submitted_answer_list
          last_shard.accumulated_answer_json_size_bytes new_list).1.length - 1 =
          c + ((shard_answers sz last_shard.submitted_answer_list
            last_shard.accumulated_answer_json_size_bytes new_list).1.length - 1) := by
        omega
       simp [entities_to_put, tail_entity, hlen1, hS, hne, hsub, hcc, hc0, beq_iff_eq,
         -List.headD_eq_head?_getD])

theorem new_shard_entities_ids (iid : String) (c : Nat) (lists : List (List α))
    (sizes : List Nat) :
    ∀ e ∈ new_shard_entities iid c lists sizes,
      c < e.shard_id ∧ e.shard_id ≤ c + (lists.length - 1) := by
  intro e he
  obtain ⟨j, hj, rfl⟩ := List.mem_map.mp he
  have hj' := List.mem_range.mp hj
  constructor
  · simp only []
    omega
  · simp only []
    omega

theorem insert_core_untouched (sz : α → Nat) (hpos : ∀ a, 0 < sz a) (iid : String)
    (st : StateAnswersStore α) (main_shard : StateAnswersModel α) (c : Nat)
    (last_shard : StateAnswersModel α) (new_list : List α)
    (hm_id : main_shard.shard_id = 0)
    (hl_id : last_shard.shard_id = c)
    (hmc : main_shard.shard_count = some c)
    (hlm : c = 0 → last_shard = main_shard) :
    ∀ i, i ≠ 0 → i ≠ c →
      ¬(c < i ∧ i ≤ c + ((shard_answers sz last_shard.submitted_answer_list
          last_shard.accumulated_answer_json_size_bytes new_list).1.length - 1)) →
      insert_core sz iid st main_shard c last_shard new_list i = st i := by
  intro i hi0 hic hrange
  by_cases hc0 : c = 0
  · by_cases hupd : ((shard_answers sz last_shard.submitted_answer_list
        last_shard.accumulated_answer_json_size_bytes new_list).1.length = 1 ∧
        (shard_answers sz last_shard.submitted_answer_list
          last_shard.accumulated_answer_json_size_bytes new_list).2.headD 0 =
          last_shard.accumulated_answer_json_size_bytes)
    · rw [insert_core_noop sz iid st main_shard c last_shard new_list hupd.1 hupd.2]
    · subst hc0
      rw [insert_core, entities_to_put_c0 sz hpos iid main_shard last_shard new_list
        hmc (hlm rfl) hupd]
      refine put_multi_apply_of_ne _ st i ?_
      intro e he
      rcases List.mem_append.mp he with he | he
      · have hid := new_shard_entities_ids iid 0 _ _ e he
        intro heq
        exact hrange (heq ▸ hid)
      · have he' : e = master_entity sz main_shard 0 last_shard new_list := by
          simpa using he
      -- the master entity keeps the master's shard id, 0
        rw [he']
        have hid : (master_entity sz main_shard 0 last_shard new_list).shard_id =
            main_shard.shard_id := rfl
        rw [hid, hm_id]
        exact fun heq => hi0 heq.symm
  · rw [insert_core, entities_to_put_pos sz iid main_shard last_shard c new_list hc0]
    refine put_multi_apply_of_ne _ st i ?_
    intro e he
    rcases List.mem_append.mp he with he | he
    · rcases List.mem_append.mp he with he | he
      · have hid := new_shard_entities_ids iid c _ _ e he
        intro heq
        exact hrange (heq ▸ hid)
      · by_cases hlen1 : (shard_answers sz last_shard.submitted_answer_list
            last_shard.accumulated_answer_json_size_bytes new_list).1.length = 1
        · rw [if_pos hlen1] at he
          simp at he
        · rw [if_neg hlen1] at he
          have he' : e = { main_shard with shard_count := some (c +
              ((shard_answers sz last_shard.submitted_answer_list
                last_shard.accumulated_answer_json_size_bytes new_list).1.length - 1)) } := by
            simpa using he
          rw [he']
          have hid : ({ main_shard with shard_count := some (c +
              ((shard_answers sz last_shard.submitted_answer_list
                last_shard.accumulated_answer_json_size_bytes
                  new_list).1.length - 1)) }).shard_id = main_shard.shard_id := rfl
          rw [hid, hm_id]
          exact fun heq => hi0 heq.symm
    · by_cases hS : (shard_answers sz last_shard.submitted_answer_list
          last_shard.accumulated_answer_json_size_bytes new_list).2.headD 0 =
          last_shard.accumulated_answer_json_size_bytes
      · rw [if_pos hS] at he
        simp at he
      · rw [if_neg hS] at he
        have he' : e = tail_entity sz last_shard new_list := by simpa using he
        rw [he']
        have hid : (tail_entity sz last_shard new_list).shard_id =
            last_shard.shard_id := rfl
        rw [hid, hl_id]
        exact fun heq => hic heq.symm

theorem insert_core_new_shard (sz : α → Nat) (hpos : ∀ a, 0 < sz a) (iid : String)
    (st : StateAnswersStore α) (main_shard : StateAnswersModel α) (c : Nat)
    (last_shard : StateAnswersModel α) (new_list : List α)
    (hm_id : main_shard.shard_id = 0)
    (hl_id : last_shard.shard_id = c)
    (hmc : main_shard.shard_count = some c)
    (hlm : c = 0 → last_shard = main_shard)
    (j : Nat) (hj1 : 1 ≤ j)
    (hjk : j ≤ (shard_answers sz last_shard.submitted_answer_list
        last_shard.accumulated_answer_json_size_bytes new_list).1.length - 1) :
    insert_core sz iid st main_shard c last_shard new_list (c + j) =
      some { shard_id := c + j, interaction_id := iid, shard_count := none,
             accumulated_answer_json_size_bytes := (shard_answers sz
               last_shard.submitted_answer_list
               last_shard.accumulated_answer_json_size_bytes new_list).2.getD j 0,
             submitted_answer_list := (shard_answers sz
               last_shard.submitted_answer_list
               last_shard.accumulated_answer_json_size_bytes new_list).1.getD j [] } := by
  have hlp := shard_answers_length_pos sz last_shard.submitted_answer_list
    last_shard.accumulated_answer_json_size_bytes new_list
  have hlen1 : ¬((shard_answers sz last_shard.submitted_answer_list
      last_shard.accumulated_answer_json_size_bytes new_list).1.length = 1) := by
    omega
  have hns : put_multi st (new_shard_entities iid c
      (shard_answers sz last_shard.submitted_answer_list
        last_shard.accumulated_answer_json_size_bytes new_list).1
      (shard_answers sz last_shard.submitted_answer_list
        last_shard.accumulated_answer_json_size_bytes new_list).2) (c + j) =
      some { shard_id := c + j, interaction_id := iid, shard_count := none,
             accumulated_answer_json_size_bytes := (shard_answers sz
               last_shard.submitted_answer_list
               last_shard.accumulated_answer_json_size_bytes new_list).2.getD j 0,
             submitted_answer_list := (shard_answers sz
               last_shard.submitted_answer_list
               last_shard.accumulated_answer_json_size_bytes new_list).1.getD j [] } := by
    rw [new_shard_entities_apply, if_pos (by omega)]
    have hjj : c + j - c = j := by omega
    rw [hjj]
  by_cases hc0 : c = 0
  · subst hc0
    rw [insert_core, entities_to_put_c0 sz hpos iid main_shard last_shard new_list
      hmc (hlm rfl) (fun h => hlen1 h.1), put_multi_append]
    have hmain : put_multi (put_multi st (new_shard_entities iid 0
        (shard_answers sz last_shard.submitted_answer_list
          last_shard.accumulated_answer_json_size_bytes new_list).1
        (shard_answers sz last_shard.submitted_answer_list
          last_shard.accumulated_answer_json_size_bytes new_list).2))
        [master_entity sz main_shard 0 last_shard new_list] (0 + j) =
        put_multi st (new_shard_entities iid 0
          (shard_answers sz last_shard.submitted_answer_list
            last_shard.accumulated_answer_json_size_bytes new_list).1
          (shard_answers sz last_shard.submitted_answer_list
            last_shard.accumulated_answer_json_size_bytes new_list).2) (0 + j) := by
      refine put_multi_apply_of_ne _ _ _ ?_
      intro e he
      have he' : e = master_entity sz main_shard 0 last_shard new_list := by
        simpa using he
      rw [he']
      have hid : (master_entity sz main_shard 0 last_shard new_list).shard_id =
          main_shard.shard_id := rfl
      rw [hid, hm_id]
      omega
    rw [hmain, hns]
  · rw [insert_core, entities_to_put_pos sz iid main_shard last_shard c new_list hc0,
      put_multi_append, put_multi_append]
    have htail : ∀ X : StateAnswersStore α,
        put_multi X (if (shard_answers sz last_shard.submitted_answer_list
            last_shard.accumulated_answer_json_size_bytes new_list).2.headD 0 =
            last_shard.accumulated_answer_json_size_bytes
          then [] else [tail_entity sz last_shard new_list]) (c + j) = X (c + j) := by
      intro X
      refine put_multi_apply_of_ne _ _ _ ?_
      intro e he
      by_cases hS : (shard_answers sz last_shard.submitted_answer_list
          last_shard.accumulated_answer_json_size_bytes new_list).2.headD 0 =
          last_shard.accumulated_answer_json_size_bytes
      · rw [if_pos hS] at he
        simp at he
      · rw [if_neg hS] at he
        have he' : e = tail_entity sz last_shard new_list := by simpa using he
        rw [he']
        have hid : (tail_entity sz last_shard new_list).shard_id =
            last_shard.shard_id := rfl
        rw [hid, hl_id]
        omega
    have hmain : ∀ X : StateAnswersStore α,
        put_multi X (if (shard_answers sz last_shard.submitted_answer_list
            last_shard.accumulated_answer_json_size_bytes new_list).1.length = 1
          then [] else [{ main_shard with shard_count := some (c +
            ((shard_answers sz last_shard.submitted_answer_list
              last_shard.accumulated_answer_json_size_bytes
                new_list).1.length - 1)) }]) (c + j) = X (c + j) := by
      intro X
      refine put_multi_apply_of_ne _ _ _ ?_
      intro e he
      rw [if_neg hlen1] at he
      have he' : e = { main_shard with shard_count := some (c +
          ((shard_answers sz last_shard.submitted_answer_list
            last_shard.accumulated_answer_json_size_bytes
              new_list).1.length - 1)) } := by simpa using he
      rw [he']
      have hid : ({ main_shard with shard_count := some (c +
          ((shard_answers sz last_shard.submitted_answer_list
            last_shard.accumulated_answer_json_size_bytes
              new_list).1.length - 1)) }).shard_id = main_shard.shard_id := rfl
      rw [hid, hm_id]
      omega
    rw [htail, hmain, hns]

theorem insert_core_tail (sz : α → Nat) (hpos : ∀ a, 0 < sz a) (iid : String)
    (st : StateAnswersStore α) (main_shard : StateAnswersModel α) (c : Nat)
    (last_shard : StateAnswersModel α) (new_list : List α)
    (hm_id : main_shard.shard_id = 0)
    (hl_id : last_shard.shard_id = c)
    (hc0 : c ≠ 0)
    (hstc : st c = some last_shard) :
    insert_core sz iid st main_shard c last_shard new_list c =
      some (tail_entity sz last_shard new_list) := by
  rw [insert_core, entities_to_put_pos sz iid main_shard last_shard c new_list hc0,
    put_multi_append, put_multi_append]
  by_cases hS : (shard_answers sz last_shard.submitted_answer_list
      last_shard.accumulated_answer_json_size_bytes new_list).2.headD 0 =
      last_shard.accumulated_answer_json_size_bytes
  · rw [if_pos hS]
    have h1 : put_multi (put_multi (put_multi st (new_shard_entities iid c
        (shard_answers sz last_shard.submitted_answer_list
          last_shard.accumulated_answer_json_size_bytes new_list).1
        (shard_answers sz last_shard.submitted_answer_list
          last_shard.accumulated_answer_json_size_bytes new_list).2))
        (if (shard_answers sz last_shard.submitted_answer_list
            last_shard.accumulated_answer_json_size_bytes new_list).1.length = 1
          then []
          else [{ main_shard with shard_count := some (c +
            ((shard_answers sz last_shard.submitted_answer_list
              last_shard.accumulated_answer_json_size_bytes
                new_list).1.length - 1)) }])) ([] : List (StateAnswersModel α)) c =
        st c := by
      have h2 : put_multi (put_multi st (new_shard_entities iid c
          (shard_answers sz last_shard.submitted_answer_list
            last_shard.accumulated_answer_json_size_bytes new_list).1
          (shard_answers sz last_shard.submitted_answer_list
            last_shard.accumulated_answer_json_size_bytes new_list).2))
          (if (shard_answers sz last_shard.submitted_answer_list
              last_shard.accumulated_answer_json_size_bytes new_list).1.length = 1
            then []
            else [{ main_shard with shard_count := some (c +
              ((shard_answers sz last_shard.submitted_answer_list
                last_shard.accumulated_answer_json_size_bytes
                  new_list).1.length - 1)) }]) c =
          put_multi st (new_shard_entities iid c
            (shard_answers sz last_shard.submitted_answer_list
              last_shard.accumulated_answer_json_size_bytes new_list).1
            (shard_answers sz last_shard.submitted_answer_list
              last_shard.accumulated_answer_json_size_bytes new_list).2) c := by
        refine put_multi_apply_of_ne _ _ _ ?_
        intro e he
        by_cases hlen1 : (shard_answers sz last_shard.submitted_answer_list
            last_shard.accumulated_answer_json_size_bytes new_list).1.length = 1
        · rw [if_pos hlen1] at he
          simp at he
        · rw [if_neg hlen1] at he
          have he' : e = { main_shard with shard_count := some (c +
              ((shard_answers sz last_shard.submitted_answer_list
                last_shard.accumulated_answer_json_size_bytes
                  new_list).1.length - 1)) } := by simpa using he
          rw [he']
          have hid : ({ main_shard with shard_count := some (c +
              ((shard_answers sz last_shard.submitted_answer_list
                last_shard.accumulated_answer_json_size_bytes
                  new_list).1.length - 1)) }).shard_id = main_shard.shard_id := rfl
          rw [hid, hm_id]
          omega
      have h3 : put_multi st (new_shard_entities iid c
          (shard_answers sz last_shard.submitted_answer_list
            last_shard.accumulated_answer_json_size_bytes new_list).1
          (shard_answers sz last_shard.submitted_answer_list
            last_shard.accumulated_answer_json_size_bytes new_list).2) c = st c := by
        rw [new_shard_entities_apply, if_neg (by omega)]
      have h4 : ∀ X : StateAnswersStore α,
          put_multi X ([] : List (StateAnswersModel α)) = X := fun _ => rfl
      rw [h4, h2, h3]
    rw [h1, hstc]
    have hhead := shard_answers_head_of_size_eq sz hpos
      last_shard.submitted_answer_list
      last_shard.accumulated_answer_json_size_bytes new_list hS
    obtain ⟨lid, liid, lsc, lacc, llist⟩ := last_shard
    simp only [tail_entity]
    dsimp only at hhead hS ⊢
    rw [hhead, hS]
  · rw [if_neg hS]
    have h1 : put_multi (put_multi (put_multi st (new_shard_entities iid c
        (shard_answers sz last_shard.submitted_answer_list
          last_shard.accumulated_answer_json_size_bytes new_list).1
        (shard_answers sz last_shard.submitted_answer_list
          last_shard.accumulated_answer_json_size_bytes new_list).2))
        (if (shard_answers sz last_shard.submitted_answer_list
            last_shard.accumulated_answer_json_size_bytes new_list).1.length = 1
          then []
          else [{ main_shard with shard_count := some (c +
            ((shard_answers sz last_shard.submitted_answer_list
              last_shard.accumulated_answer_json_size_bytes
                new_list).1.length - 1)) }]))
        [tail_entity sz last_shard new_list] c =
        some (tail_entity sz last_shard new_list) := by
      have hid : (tail_entity sz last_shard new_list).shard_id =
          last_shard.shard_id := rfl
      have h2 : put_multi (put_multi (put_multi st (new_shard_entities iid c
          (shard_answers sz last_shard.submitted_answer_list
            last_shard.accumulated_answer_json_size_bytes new_list).1
          (shard_answers sz last_shard.submitted_answer_list
            last_shard.accumulated_answer_json_size_bytes new_list).2))
          (if (shard_answers sz last_shard.submitted_answer_list
              last_shard.accumulated_answer_json_size_bytes new_list).1.length = 1
            then []
            else [{ main_shard with shard_count := some (c +
              ((shard_answers sz last_shard.submitted_answer_list
                last_shard.accumulated_answer_json_size_bytes
                  new_list).1.length - 1)) }]))
          [tail_entity sz last_shard new_list] c =
          if c = (tail_entity sz last_shard new_list).shard_id
            then some (tail_entity sz last_shard new_list)
            else (put_multi (put_multi st (new_shard_entities iid c
              (shard_answers sz last_shard.submitted_answer_list
                last_shard.accumulated_answer_json_size_bytes new_list).1
              (shard_answers sz last_shard.submitted_answer_list
                last_shard.accumulated_answer_json_size_bytes new_list).2))
              (if (shard_answers sz last_shard.submitted_answer_list
                  last_shard.accumulated_answer_json_size_bytes new_list).1.length = 1
                then []
                else [{ main_shard with shard_count := some (c +
                  ((shard_answers sz last_shard.submitted_answer_list
                    last_shard.accumulated_answer_json_size_bytes
                      new_list).1.length - 1)) }])) c := rfl
      rw [h2, hid, hl_id, if_pos rfl]
    rw [h1]

theorem insert_core_master (sz : α → Nat) (hpos : ∀ a, 0 < sz a) (iid : String)
    (st : StateAnswersStore α) (main_shard : StateAnswersModel α) (c : Nat)
    (last_shard : StateAnswersModel α) (new_list : List α)
    (hm_id : main_shard.shard_id = 0)
    (hl_id : last_shard.shard_id = c)
    (hmc : main_shard.shard_count = some c)
    (hlm : c = 0 → last_shard = main_shard)
    (hst0 : c ≠ 0 → st 0 = some main_shard)
    (hupd : ¬((shard_answers sz last_shard.submitted_answer_list
        last_shard.accumulated_answer_json_size_bytes new_list).1.length = 1 ∧
      (shard_answers sz last_shard.submitted_answer_list
        last_shard.accumulated_answer_json_size_bytes new_list).2.headD 0 =
        last_shard.accumulated_answer_json_size_bytes) ∨ c ≠ 0) :
    insert_core sz iid st main_shard c last_shard new_list 0 =
      some (master_entity sz main_shard c last_shard new_list) := by
  have hlp := shard_answers_length_pos sz last_shard.submitted_answer_list
    last_shard.accumulated_answer_json_size_bytes new_list
  by_cases hc0 : c = 0
  · have hupd' : ¬((shard_answers sz last_shard.submitted_answer_list
        last_shard.accumulated_answer_json_size_bytes new_list).1.length = 1 ∧
      (shard_answers sz last_shard.submitted_answer_list
        last_shard.accumulated_answer_json_size_bytes new_list).2.headD 0 =
        last_shard.accumulated_answer_json_size_bytes) := by
      rcases hupd with h | h
      · exact h
      · exact absurd hc0 h
    subst hc0
    rw [insert_core, entities_to_put_c0 sz hpos iid main_shard last_shard new_list
      hmc (hlm rfl) hupd', put_multi_append]
    have h2 : put_multi (put_multi st (new_shard_entities iid 0
        (shard_answers sz last_shard.submitted_answer_list
          last_shard.accumulated_answer_json_size_bytes new_list).1
        (shard_answers sz last_shard.submitted_answer_list
          last_shard.accumulated_answer_json_size_bytes new_list).2))
        [master_entity sz main_shard 0 last_shard new_list] 0 =
        if 0 = (master_entity sz main_shard 0 last_shard new_list).shard_id
          then some (master_entity sz main_shard 0 last_shard new_list)
          else put_multi st (new_shard_entities iid 0
            (shard_answers sz last_shard.submitted_answer_list
              last_shard.accumulated_answer_json_size_bytes new_list).1
            (shard_answers sz last_shard.submitted_answer_list
              last_shard.accumulated_answer_json_size_bytes new_list).2) 0 := rfl
    have hid : (master_entity sz main_shard 0 last_shard new_list).shard_id =
        main_shard.shard_id := rfl
    rw [h2, hid, hm_id, if_pos rfl]
  · rw [insert_core, entities_to_put_pos sz iid main_shard last_shard c new_list hc0,
      put_multi_append, put_multi_append]
    have htail : ∀ X : StateAnswersStore α,
        put_multi X (if (shard_answers sz last_shard.submitted_answer_list
            last_shard.accumulated_answer_json_size_bytes new_list).2.headD 0 =
            last_shard.accumulated_answer_json_size_bytes
          then [] else [tail_entity sz last_shard new_list]) 0 = X 0 := by
      intro X
      refine put_multi_apply_of_ne _ _ _ ?_
      intro e he
      by_cases hS : (shard_answers sz last_shard.submitted_answer_list
          last_shard.accumulated_answer_json_size_bytes new_list).2.headD 0 =
          last_shard.accumulated_answer_json_size_bytes
      · rw [if_pos hS] at he
        simp at he
      · rw [if_neg hS] at he
        have he' : e = tail_entity sz last_shard new_list := by simpa using he
        rw [he']
        have hid : (tail_entity sz last_shard new_list).shard_id =
            last_shard.shard_id := rfl
        rw [hid, hl_id]
        exact hc0
    rw [htail]
    by_cases hlen1 : (shard_answers sz last_shard.submitted_answer_list
        last_shard.accumulated_answer_json_size_bytes new_list).1.length = 1
    · rw [if_pos hlen1]
      have h4 : ∀ X : StateAnswersStore α,
          put_multi X ([] : List (StateAnswersModel α)) = X := fun _ => rfl
      rw [h4, new_shard_entities_apply, if_neg (by omega), hst0 hc0]
      have hmeq : master_entity sz main_shard c last_shard new_list = main_shard := by
        obtain ⟨mid, miid, msc, macc, mlist⟩ := main_shard
        simp only [master_entity, hlen1, hc0, if_neg hc0]
        dsimp only at hmc ⊢
        rw [hmc]
        simp
      rw [hmeq]
    · rw [if_neg hlen1]
      have h2 : put_multi (put_multi st (new_shard_entities iid c
          (shard_answers sz last_shard.submitted_answer_list
            last_shard.accumulated_answer_json_size_bytes new_list).1
          (shard_answers sz last_shard.submitted_answer_list
            last_shard.accumulated_answer_json_size_bytes new_list).2))
          [{ main_shard with shard_count := some (c +
            ((shard_answers sz last_shard.submitted_answer_list
              last_shard.accumulated_answer_json_size_bytes
                new_list).1.length - 1)) }] 0 =
          if 0 = ({ main_shard with shard_count := some (c +
            ((shard_answers sz last_shard.submitted_answer_list
              last_shard.accumulated_answer_json_size_bytes
                new_list).1.length - 1)) }).shard_id
            then some { main_shard with shard_count := some (c +
              ((shard_answers sz last_shard.submitted_answer_list
                last_shard.accumulated_answer_json_size_bytes
                  new_list).1.length - 1)) }
            else put_multi st (new_shard_entities iid c
              (shard_answers sz last_shard.submitted_answer_list
                last_shard.accumulated_answer_json_size_bytes new_list).1
              (shard_answers sz last_shard.submitted_answer_list
                last_shard.accumulated_answer_json_size_bytes new_list).2) 0 := rfl
    -- the record update only changes shard_count, so its shard id is the master's
      have hid : ({ main_shard with shard_count := some (c +
          ((shard_answers sz last_shard.submitted_answer_list
            last_shard.accumulated_answer_json_size_bytes
              new_list).1.length - 1)) }).shard_id = main_shard.shard_id := rfl
      rw [h2, hid, hm_id, if_pos rfl]
      have hmeq : master_entity sz main_shard c last_shard new_list =
          { main_shard with shard_count := some (c +
            ((shard_answers sz last_shard.submitted_answer_list
              last_shard.accumulated_answer_json_size_bytes
                new_list).1.length - 1)) } := by
        simp [master_entity, hc0]
      rw [hmeq, hm_id]

theorem headD_eq_getD_zero (l : List (List α)) :
    l.headD [] = l.getD 0 [] := by
  cases l with
  | nil => rfl
  | cons a t => rfl

theorem map_getD_range : ∀ l : List (List α),
    (List.range l.length).map (fun j => l.getD j ([] : List α)) = l := by
  intro l
  induction l with
  | nil => rfl
  | cons a l ih =>
    rw [List.length_cons, List.range_succ_eq_map, List.map_cons, List.map_map]
    congr 1

theorem range_map_flatten_eq (lists : List (List α)) (f : Nat → List α) (k : Nat)
    (hk : lists.length = k + 1)
    (h0 : f 0 = lists.headD [])
    (hj : ∀ j, 1 ≤ j → j ≤ k → f j = lists.getD j []) :
    ((List.range (k + 1)).map f).flatten = lists.flatten := by
  have hcongr : (List.range (k + 1)).map f =
      (List.range (k + 1)).map (fun j => lists.getD j []) := by
    refine List.map_congr_left ?_
    intro j hjmem
    have hjlt := List.mem_range.mp hjmem
    rcases Nat.eq_zero_or_pos j with rfl | hj1
    · rw [h0, headD_eq_getD_zero]
    · exact hj j hj1 (by omega)
  rw [hcongr, ← hk, map_getD_range]

theorem insert_core_step (sz : α → Nat) (hpos : ∀ a, 0 < sz a) (iid : String)
    (st : StateAnswersStore α) (main_e : StateAnswersModel α) (c : Nat)
    (last_e : StateAnswersModel α) (batch : List α)
    (hm_id : main_e.shard_id = 0) (hl_id : last_e.shard_id = c)
    (hmc : main_e.shard_count = some c)
    (hlm : c = 0 → last_e = main_e)
    (hst0 : c ≠ 0 → st 0 = some main_e)
    (hstc : c ≠ 0 → st c = some last_e)
    (hids : ∀ i e, st i = some e → e.shard_id = i)
    (hex : ∀ i, i ≤ c → i ≠ 0 → (st i).isSome)
    (habove : ∀ i, c < i → st i = none)
    (hupd : ¬((shard_answers sz last_e.submitted_answer_list
        last_e.accumulated_answer_json_size_bytes batch).1.length = 1 ∧
      (shard_answers sz last_e.submitted_answer_list
        last_e.accumulated_answer_json_size_bytes batch).2.headD 0 =
        last_e.accumulated_answer_json_size_bytes) ∨ c ≠ 0) :
    StoreInv (insert_core sz iid st main_e c last_e batch) ∧
    shard_count_data (insert_core sz iid st main_e c last_e batch) =
      c + ((shard_answers sz last_e.submitted_answer_list
        last_e.accumulated_answer_json_size_bytes batch).1.length - 1) ∧
    (∀ i, c < i → i ≤ c + ((shard_answers sz last_e.submitted_answer_list
        last_e.accumulated_answer_json_size_bytes batch).1.length - 1) →
      st i = none ∧ ((insert_core sz iid st main_e c last_e batch) i).isSome) ∧
    read_all_records (insert_core sz iid st main_e c last_e batch) =
      ((List.range c).map (fun i => match st i with
        | none => ([] : List α)
        | some e => e.submitted_answer_list)).flatten ++
      (shard_answers sz last_e.submitted_answer_list
        last_e.accumulated_answer_json_size_bytes batch).1.flatten := by
  have hlp := shard_answers_length_pos sz last_e.submitted_answer_list
    last_e.accumulated_answer_json_size_bytes batch
  have hmaster := insert_core_master sz hpos iid st main_e c last_e batch
    hm_id hl_id hmc hlm hst0 hupd
  have hnews := insert_core_new_shard sz hpos iid st main_e c last_e batch
    hm_id hl_id hmc hlm
  have huntouched := insert_core_untouched sz hpos iid st main_e c last_e batch
    hm_id hl_id hmc hlm
  have hmcount : (master_entity sz main_e c last_e batch).shard_count =
      some (c + ((shard_answers sz last_e.submitted_answer_list
        last_e.accumulated_answer_json_size_bytes batch).1.length - 1)) := rfl
  have hmsub : c ≠ 0 → (master_entity sz main_e c last_e batch).submitted_answer_list =
      main_e.submitted_answer_list := by
    intro hc0
    simp [master_entity, hc0]
  have hmsub0 : c = 0 → (master_entity sz main_e c last_e batch).submitted_answer_list =
      (shard_answers sz last_e.submitted_answer_list
        last_e.accumulated_answer_json_size_bytes batch).1.headD [] := by
    intro hc0
    simp [master_entity, hc0]
  have hsome : ∀ i, i ≤ c + ((shard_answers sz last_e.submitted_answer_list
      last_e.accumulated_answer_json_size_bytes batch).1.length - 1) →
      ((insert_core sz iid st main_e c last_e batch) i).isSome := by
    intro i hik
    by_cases hi0 : i = 0
    · subst hi0
      rw [hmaster]
      rfl
    · by_cases hic : i = c
      · subst hic
        rw [insert_core_tail sz hpos iid st main_e i last_e batch hm_id hl_id hi0
          (hstc hi0)]
        rfl
      · by_cases hrange : c < i ∧ i ≤ c + ((shard_answers sz
            last_e.submitted_answer_list
            last_e.accumulated_answer_json_size_bytes batch).1.length - 1)
        · have hj := hnews (i - c) (by omega) (by omega)
          have hci : c + (i - c) = i := by omega
          rw [hci] at hj
          rw [hj]
          rfl
        · rw [huntouched i hi0 hic hrange]
          have hilt : i < c := by omega
          exact hex i (by omega) hi0
  refine ⟨⟨?_, Or.inr ⟨c + ((shard_answers sz last_e.submitted_answer_list
      last_e.accumulated_answer_json_size_bytes batch).1.length - 1),
    master_entity sz main_e c last_e batch, hmaster, hmcount, ?_, ?_⟩⟩, ?_, ?_, ?_⟩
  · -- shard ids
    intro i e he
    by_cases hi0 : i = 0
    · subst hi0
      rw [hmaster] at he
      have he' : e = master_entity sz main_e c last_e batch := by
        injection he.symm
      rw [he']
      exact hm_id
    · by_cases hic : i = c
      · subst hic
        rw [insert_core_tail sz hpos iid st main_e i last_e batch hm_id hl_id hi0
          (hstc hi0)] at he
        have he' : e = tail_entity sz last_e batch := by injection he.symm
        rw [he']
        exact hl_id
      · by_cases hrange : c < i ∧ i ≤ c + ((shard_answers sz
            last_e.submitted_answer_list
            last_e.accumulated_answer_json_size_bytes batch).1.length - 1)
        · have hj := hnews (i - c) (by omega) (by omega)
          have hci : c + (i - c) = i := by omega
          rw [hci] at hj
          rw [hj] at he
          have he' : e = { shard_id := i, interaction_id := iid, shard_count := none,
                           accumulated_answer_json_size_bytes := (shard_answers sz
                             last_e.submitted_answer_list
                             last_e.accumulated_answer_json_size_bytes
                               batch).2.getD (i - c) 0,
                           submitted_answer_list := (shard_answers sz
                             last_e.submitted_answer_list
                             last_e.accumulated_answer_json_size_bytes
                               batch).1.getD (i - c) [] } := by
            injection he.symm
          rw [he']
        · rw [huntouched i hi0 hic hrange] at he
          exact hids i e he
  · -- all shards up to the new count exist
    intro i hik
    exact hsome i hik
  · -- nothing above the new count
    intro i hik
    have hi0 : i ≠ 0 := by omega
    have hic : i ≠ c := by omega
    rw [huntouched i hi0 hic (by omega)]
    exact habove i (by omega)
  · -- the new shard count
    simp only [shard_count_data]
    rw [hmaster]
    rfl
  · -- the new shards fill indices old count + 1 .. new count with no gaps
    intro i hci hik
    exact ⟨habove i hci, hsome i hik⟩
  · -- reading back all shards
    simp only [read_all_records]
    rw [hmaster]
    simp only [hmcount, Option.getD_some]
    have hsplit : c + ((shard_answers sz last_e.submitted_answer_list
        last_e.accumulated_answer_json_size_bytes batch).1.length - 1) + 1 =
        c + (((shard_answers sz last_e.submitted_answer_list
          last_e.accumulated_answer_json_size_bytes batch).1.length - 1) + 1) := by
      omega
    rw [hsplit, List.range_add, List.map_append, List.flatten_append, List.map_map]
    have hpiece1 : (List.range c).map ((fun i =>
        match insert_core sz iid st main_e c last_e batch i with
        | none => ([] : List α)
        | some e => e.submitted_answer_list)) =
        (List.range c).map (fun i => match st i with
        | none => ([] : List α)
        | some e => e.submitted_answer_list) := by
      refine List.map_congr_left ?_
      intro i hi
      have hilt := List.mem_range.mp hi
      have hc0 : c ≠ 0 := by omega
      by_cases hi0 : i = 0
      · subst hi0
        rw [hmaster, hst0 hc0]
        simp only [hmsub hc0]
      · rw [huntouched i hi0 (by omega) (by omega)]
    rw [hpiece1]
    congr 1
    refine range_map_flatten_eq _ _ _ (by omega) ?_ ?_
    · show (match insert_core sz iid st main_e c last_e batch (c + 0) with
        | none => ([] : List α)
        | some e => e.submitted_answer_list) = _
      rw [Nat.add_zero]
      by_cases hc0 : c = 0
      · subst hc0
        rw [hmaster]
        simp only [hmsub0 rfl]
      · rw [insert_core_tail sz hpos iid st main_e c last_e batch hm_id hl_id hc0
          (hstc hc0)]
        rfl
    · intro j hj1 hjk
      show (match insert_core sz iid st main_e c last_e batch (c + j) with
        | none => ([] : List α)
        | some e => e.submitted_answer_list) = _
      rw [hnews j hj1 hjk]

theorem insert_step (sz : α → Nat) (hpos : ∀ a, 0 < sz a) (iid : String)
    (st : StateAnswersStore α) (batch : List α) (hinv : StoreInv st) :
    ∃ st', insert_submitted_answers sz iid st batch = some st' ∧
      StoreInv st' ∧
      shard_count_data st' =
        shard_count_data st + (insert_bucket_count sz st batch - 1) ∧
      (∀ i, shard_count_data st < i → i ≤ shard_count_data st' →
        st i = none ∧ (st' i).isSome) ∧
      (read_all_records st').Perm (read_all_records st ++ batch) := by
  obtain ⟨hids, hdisj⟩ := hinv
  rcases hdisj with hempty | ⟨n, m, hm0, hmcnt, hexis, habove⟩
  · -- the key has never been written: a fresh master shard is synthesized
    have h0 : st 0 = none := hempty 0
    have hins : insert_submitted_answers sz iid st batch =
        some (insert_core sz iid st (fresh_main_shard iid) 0
          (fresh_main_shard iid) batch) := by
      rw [insert_submitted_answers, h0]
    have hcount0 : shard_count_data st = 0 := by
      simp [shard_count_data, h0]
    have hbucket : insert_bucket_count sz st batch =
        (shard_answers sz (fresh_main_shard (α := α) iid).submitted_answer_list
          (fresh_main_shard (α := α) iid).accumulated_answer_json_size_bytes
          batch).1.length := by
      simp [insert_bucket_count, tail_shard_data, h0, fresh_main_shard]
    have hread0 : read_all_records st = [] := by
      simp [read_all_records, h0]
    by_cases hno : ((shard_answers sz
        (fresh_main_shard (α := α) iid).submitted_answer_list
        (fresh_main_shard (α := α) iid).accumulated_answer_json_size_bytes
          batch).1.length = 1 ∧
      (shard_answers sz (fresh_main_shard (α := α) iid).submitted_answer_list
        (fresh_main_shard (α := α) iid).accumulated_answer_json_size_bytes
          batch).2.headD 0 =
        (fresh_main_shard (α := α) iid).accumulated_answer_json_size_bytes)
    · have hnil : batch = [] := shard_answers_trivial_imp_nil sz hpos _ _ batch
        hno.1 hno.2
      refine ⟨st, ?_, ⟨hids, Or.inl hempty⟩, ?_, ?_, ?_⟩
      · rw [hins, insert_core_noop sz iid st _ 0 _ batch hno.1 hno.2]
      · rw [hcount0, hbucket, hno.1]
      · intro i hi hik
        rw [hcount0] at hi hik
        omega
      · rw [hnil, List.append_nil]
    · obtain ⟨hinv', hcount', hgap', hread'⟩ :=
        insert_core_step sz hpos iid st (fresh_main_shard iid) 0
          (fresh_main_shard iid) batch rfl rfl rfl (fun _ => rfl)
          (fun hc0 => absurd rfl hc0) (fun hc0 => absurd rfl hc0) hids
          (fun i hi hi0 => absurd (by omega) hi0)
          (fun i _ => hempty i) (Or.inl hno)
      refine ⟨_, hins, hinv', ?_, ?_, ?_⟩
      · rw [hcount', hcount0, hbucket]
      · intro i hi hik
        rw [hcount0] at hi
        rw [hcount'] at hik
        exact hgap' i (by omega) (by omega)
      · rw [hread', hread0]
        simp only [List.range_zero, List.map_nil, List.flatten_nil, List.nil_append]
        rw [shard_answers_flatten]
        have hfp := answer_size_pairs_fst_perm sz batch
        have : (fresh_main_shard (α := α) iid).submitted_answer_list = [] := rfl
        rw [this, List.nil_append]
        exact hfp
  · have hm_id : m.shard_id = 0 := hids 0 m hm0
    rcases Nat.eq_zero_or_pos n with hn0 | hnpos
    · -- the master shard is also the tail shard
      subst hn0
      have hins : insert_submitted_answers sz iid st batch =
          some (insert_core sz iid st m 0 m batch) := by
        simp [insert_submitted_answers, hm0, hmcnt]
      have hcount0 : shard_count_data st = 0 := by
        simp [shard_count_data, hm0, hmcnt]
      have hbucket : insert_bucket_count sz st batch =
          (shard_answers sz m.submitted_answer_list
            m.accumulated_answer_json_size_bytes batch).1.length := by
        simp [insert_bucket_count, tail_shard_data, hm0, hmcnt]
      have hread0 : read_all_records st = m.submitted_answer_list := by
        simp [read_all_records, hm0, hmcnt, List.range_succ]
      by_cases hno : ((shard_answers sz m.submitted_answer_list
          m.accumulated_answer_json_size_bytes batch).1.length = 1 ∧
        (shard_answers sz m.submitted_answer_list
          m.accumulated_answer_json_size_bytes batch).2.headD 0 =
          m.accumulated_answer_json_size_bytes)
      · have hnil : batch = [] := shard_answers_trivial_imp_nil sz hpos _ _ batch
          hno.1 hno.2
        refine ⟨st, ?_, ⟨hids, Or.inr ⟨0, m, hm0, hmcnt, hexis, habove⟩⟩, ?_, ?_, ?_⟩
        · rw [hins, insert_core_noop sz iid st m 0 m batch hno.1 hno.2]
        · rw [hcount0, hbucket, hno.1]
        · intro i hi hik
          rw [hcount0] at hi hik
          omega
        · rw [hnil, List.append_nil]
      · obtain ⟨hinv', hcount', hgap', hread'⟩ :=
          insert_core_step sz hpos iid st m 0 m batch hm_id hm_id hmcnt
            (fun _ => rfl) (fun hc0 => absurd rfl hc0) (fun hc0 => absurd rfl hc0)
            hids (fun i hi hi0 => absurd (by omega) hi0) habove (Or.inl hno)
        refine ⟨_, hins, hinv', ?_, ?_, ?_⟩
        · rw [hcount', hcount0, hbucket]
        · intro i hi hik
          rw [hcount0] at hi
          rw [hcount'] at hik
          exact hgap' i (by omega) (by omega)
        · rw [hread', hread0]
          simp only [List.range_zero, List.map_nil, List.flatten_nil,
            List.nil_append]
          rw [shard_answers_flatten]
          exact (answer_size_pairs_fst_perm sz batch).append_left
            m.submitted_answer_list
    · -- a separate tail shard exists
      have hn0 : n ≠ 0 := by omega
      obtain ⟨last_e, hlast⟩ : ∃ e, st n = some e := by
        have := hexis n (Nat.le_refl n)
        cases hsn : st n with
        | none => rw [hsn] at this; simp at this
        | some e => exact ⟨e, rfl⟩
      have hl_id : last_e.shard_id = n := hids n last_e hlast
      have hins : insert_submitted_answers sz iid st batch =
          some (insert_core sz iid st m n last_e batch) := by
        simp [insert_submitted_answers, hm0, hmcnt, hnpos, hlast]
      have hcountn : shard_count_data st = n := by
        simp [shard_count_data, hm0, hmcnt]
      have hbucket : insert_bucket_count sz st batch =
          (shard_answers sz last_e.submitted_answer_list
            last_e.accumulated_answer_json_size_bytes batch).1.length := by
        simp [insert_bucket_count, tail_shard_data, hm0, hmcnt, hnpos, hlast]
      obtain ⟨hinv', hcount', hgap', hread'⟩ :=
        insert_core_step sz hpos iid st m n last_e batch hm_id hl_id hmcnt
          (fun hc0 => absurd hc0 hn0) (fun _ => hm0) (fun _ => hlast)
          hids (fun i hi _ => hexis i hi) habove (Or.inr hn0)
      have hreadn : read_all_records st =
          ((List.range n).map (fun i => match st i with
            | none => ([] : List α)
            | some e => e.submitted_answer_list)).flatten ++
          last_e.submitted_answer_list := by
        rw [read_all_records, hm0]
        simp only [hmcnt, Option.getD_some]
        rw [List.range_succ, List.map_append, List.flatten_append]
        congr 1
        simp [hlast]
      refine ⟨_, hins, hinv', ?_, ?_, ?_⟩
      · rw [hcount', hcountn, hbucket]
      · intro i hi hik
        rw [hcountn] at hi
        rw [hcount'] at hik
        exact hgap' i (by omega) (by omega)
      · rw [hread', hreadn, shard_answers_flatten, List.append_assoc]
        refine List.Perm.append_left _ ?_
        exact (answer_size_pairs_fst_perm sz batch).append_left
          last_e.submitted_answer_list

theorem empty_store_inv : StoreInv (empty_store (α := α)) := by
  refine ⟨?_, Or.inl ?_⟩
  · intro i e h
    simp [empty_store] at h
  · intro i
    rfl

theorem read_all_records_empty : read_all_records (empty_store (α := α)) = [] := rfl

theorem apply_batches_general (sz : α → Nat) (hpos : ∀ a, 0 < sz a) (iid : String) :
    ∀ (batches : List (List α)) (st0 st : StateAnswersStore α),
      StoreInv st0 →
      batches.foldlM (fun s b => insert_submitted_answers sz iid s b) st0 =
        some st →
      StoreInv st ∧
        (read_all_records st).Perm (read_all_records st0 ++ batches.flatten) := by
  intro batches
  induction batches with
  | nil =>
    intro st0 st hinv h
    have hst : st0 = st := by simpa using h
    subst hst
    exact ⟨hinv, by simp⟩
  | cons b bs ih =>
    intro st0 st hinv h
    rw [List.foldlM_cons] at h
    obtain ⟨st1, hst1, h2⟩ := Option.bind_eq_some.mp h
    obtain ⟨st1', hins, hinv1, _, _, hperm1⟩ := insert_step sz hpos iid st0 b hinv
    have hst1' : st1' = st1 := by
      rw [hins] at hst1
      injection hst1
    subst hst1'
    obtain ⟨hinvf, hpermf⟩ := ih st1' st hinv1 h2
    refine ⟨hinvf, ?_⟩
    have hstep : (read_all_records st1' ++ bs.flatten).Perm
        (read_all_records st0 ++ (b :: bs).flatten) := by
      rw [List.flatten_cons, ← List.append_assoc]
      exact hperm1.append_right bs.flatten
    exact hpermf.trans hstep

/-- C2: starting from an empty store, after any sequence of successful
`insert_submitted_answers` calls, concatenating the answer lists of shards
0..shard_count in index order yields exactly the multiset union of all the
inserted batches — no record is lost.  (The size estimator
`_get_answer_dict_size` returns `sys.getsizeof(json.dumps(...))`, which is
always positive; `hpos` records this.) -/
theorem insert_preserves_all_records (sz : α → Nat) (hpos : ∀ a, 0 < sz a)
    (iid : String) (batches : List (List α)) (st : StateAnswersStore α)
    (h : apply_batches sz iid batches = some st) :
    (read_all_records st).Perm batches.flatten := by
  have hgen := apply_batches_general sz hpos iid batches empty_store st
    empty_store_inv h
  simpa [read_all_records_empty] using hgen.2

/-- C2 witness: two batches inserted into an empty store read back as a
permutation of their union. -/
theorem insert_preserves_all_records_witness :
    (read_all_records ((apply_batches (fun n => n + 1) "i" [[1, 2], [3]]).getD
      empty_store)).Perm [1, 2, 3] := by
  have h := insert_preserves_all_records (fun n => n + 1)
    (fun a => Nat.succ_pos a) "i" [[1, 2], [3]]
    ((apply_batches (fun n => n + 1) "i" [[1, 2], [3]]).getD empty_store) rfl
  exact h

/-- C4: after every successful insert on a store reachable from the empty
store, the master's shard count grows by exactly the number of new buckets
(hence never decreases), shards 0..shard_count all exist with no gaps, and
the shards created by the call occupy exactly the previously-empty indices
old shard_count + 1 .. new shard_count. -/
theorem insert_shard_indices_contiguous (sz : α → Nat) (hpos : ∀ a, 0 < sz a)
    (iid : String) (batches : List (List α)) (st : StateAnswersStore α)
    (h : apply_batches sz iid batches = some st)
    (batch : List α) (st' : StateAnswersStore α)
    (h' : insert_submitted_answers sz iid st batch = some st') :
    shard_count_data st ≤ shard_count_data st' ∧
    shard_count_data st' =
      shard_count_data st + (insert_bucket_count sz st batch - 1) ∧
    (∀ mast, st' 0 = some mast →
      ∀ i, i ≤ mast.shard_count.getD 0 → (st' i).isSome) ∧
    (∀ i, shard_count_data st < i → i ≤ shard_count_data st' →
      st i = none ∧ (st' i).isSome) := by
  have hinv := (apply_batches_general sz hpos iid batches empty_store st
    empty_store_inv h).1
  obtain ⟨st'', hins, hinv', hcnt, hgap, _⟩ := insert_step sz hpos iid st batch hinv
  have hst : st'' = st' := by
    rw [hins] at h'
    injection h'
  subst hst
  refine ⟨by omega, hcnt, ?_, hgap⟩
  intro mast hmast i hi
  obtain ⟨hids', hdisj'⟩ := hinv'
  rcases hdisj' with hemp | ⟨n, m, hm0, hmc, hex, hab⟩
  · rw [hemp 0] at hmast
    cases hmast
  · rw [hm0] at hmast
    have hm : m = mast := by injection hmast
    subst hm
    rw [hmc] at hi
    exact hex i (by simpa using hi)

/-- C4 witness: a second insert on a one-batch store keeps indices
contiguous. -/
theorem insert_shard_indices_contiguous_witness :
    shard_count_data ((apply_batches (fun n : Nat => n + 1) "i" [[1]]).getD
        empty_store) ≤
      shard_count_data ((insert_submitted_answers (fun n : Nat => n + 1) "i"
        ((apply_batches (fun n : Nat => n + 1) "i" [[1]]).getD empty_store)
        [2, 3]).getD empty_store) ∧
    shard_count_data ((insert_submitted_answers (fun n : Nat => n + 1) "i"
        ((apply_batches (fun n : Nat => n + 1) "i" [[1]]).getD empty_store)
        [2, 3]).getD empty_store) =
      shard_count_data ((apply_batches (fun n : Nat => n + 1) "i" [[1]]).getD
        empty_store) +
      (insert_bucket_count (fun n : Nat => n + 1)
        ((apply_batches (fun n : Nat => n + 1) "i" [[1]]).getD empty_store)
        [2, 3] - 1) ∧
    (∀ mast, ((insert_submitted_answers (fun n : Nat => n + 1) "i"
        ((apply_batches (fun n : Nat => n + 1) "i" [[1]]).getD empty_store)
        [2, 3]).getD empty_store) 0 = some mast →
      ∀ i, i ≤ mast.shard_count.getD 0 →
        (((insert_submitted_answers (fun n : Nat => n + 1) "i"
          ((apply_batches (fun n : Nat => n + 1) "i" [[1]]).getD empty_store)
          [2, 3]).getD empty_store) i).isSome) ∧
    (∀ i, shard_count_data ((apply_batches (fun n : Nat => n + 1) "i"
        [[1]]).getD empty_store) < i →
      i ≤ shard_count_data ((insert_submitted_answers (fun n : Nat => n + 1) "i"
        ((apply_batches (fun n : Nat => n + 1) "i" [[1]]).getD empty_store)
        [2, 3]).getD empty_store) →
      ((apply_batches (fun n : Nat => n + 1) "i" [[1]]).getD empty_store) i =
        none ∧
      (((insert_submitted_answers (fun n : Nat => n + 1) "i"
        ((apply_batches (fun n : Nat => n + 1) "i" [[1]]).getD empty_store)
        [2, 3]).getD empty_store) i).isSome) :=
  insert_shard_indices_contiguous (fun n => n + 1) (fun a => Nat.succ_pos a) "i"
    [[1]] ((apply_batches (fun n : Nat => n + 1) "i" [[1]]).getD empty_store) rfl
    [2, 3]
    ((insert_submitted_answers (fun n : Nat => n + 1) "i"
      ((apply_batches (fun n : Nat => n + 1) "i" [[1]]).getD empty_store)
      [2, 3]).getD empty_store) rfl

/-- C6: packing an empty batch returns exactly the single tail bucket with
its size, and a successful `insert_submitted_answers` call with an empty
record list persists nothing — the store for the key is unchanged. -/
theorem empty_batch_identity (sz : α → Nat) (iid : String)
    (current_answer_list : List α) (current_answer_list_size : Nat)
    (st st' : StateAnswersStore α)
    (h : insert_submitted_answers sz iid st [] = some st') :
    shard_answers sz current_answer_list current_answer_list_size [] =
      ([current_answer_list], [current_answer_list_size]) ∧ st' = st := by
  refine ⟨rfl, ?_⟩
  cases h0 : st 0 with
  | none =>
    simp only [insert_submitted_answers, h0, Option.some.injEq] at h
    rw [insert_core_noop sz iid st (fresh_main_shard iid) 0
      (fresh_main_shard iid) [] rfl rfl] at h
    exact h.symm
  | some m =>
    cases hc : m.shard_count with
    | none =>
      simp only [insert_submitted_answers, h0, hc] at h
      simp at h
    | some c =>
      by_cases hcpos : 0 < c
      · cases hl : st c with
        | none =>
          simp only [insert_submitted_answers, h0, hc, if_pos hcpos, hl] at h
          simp at h
        | some last_e =>
          simp only [insert_submitted_answers, h0, hc, if_pos hcpos, hl,
            Option.some.injEq] at h
          rw [insert_core_noop sz iid st m c last_e [] rfl rfl] at h
          exact h.symm
      · simp only [insert_submitted_answers, h0, hc, if_neg hcpos,
          Option.some.injEq] at h
        rw [insert_core_noop sz iid st m c m [] rfl rfl] at h
        exact h.symm

/-- C6 witness: an empty insert on the empty store leaves it unchanged. -/
theorem empty_batch_identity_witness :
    shard_answers (fun n : Nat => n) [5] 7 [] = ([[5]], [7]) ∧
    (insert_submitted_answers (fun n : Nat => n) "i" empty_store []).getD
      empty_store = empty_store :=
  empty_batch_identity (fun n => n) "i" [5] 7 empty_store
    ((insert_submitted_answers (fun n : Nat => n) "i" empty_store []).getD
      empty_store) rfl

variable {β : Type}

/-- Entity of `StateAnswersCalcOutputModel`. -/
structure StateAnswersCalcOutputModel (β : Type) where
  exploration_id : String
  exploration_version : String
  state_name : String
  calculation_id : String
  calculation_output : β

/-- Datastore contents for calculation outputs: a map from entity id to the
stored entity. -/
def CalcOutputStore (β : Type) : Type :=
  String → Option (StateAnswersCalcOutputModel β)

/-- Embedding of `StateAnswersCalcOutputModel._get_entity_id`: colon-joined key fields. -/
def calc_entity_id (exploration_id exploration_version state_name
    calculation_id : String) : String :=
  String.intercalate ":"
    [exploration_id, exploration_version, state_name, calculation_id]

/-- Embedding of `StateAnswersCalcOutputModel.create_or_update`: fetch the instance by id;
if absent build a new one, otherwise overwrite its `calculation_output`; then
try `instance.put()`.  The put may fail (e.g. the output is too large); the
Python code catches any exception and only logs it, so a failed put leaves
the store unchanged.  `put_succeeds` models the outcome of that fallible
external call. -/
def create_or_update (put_succeeds : Bool) (store : CalcOutputStore β)
    (exploration_id exploration_version state_name calculation_id : String)
    (calculation_output : β) : CalcOutputStore β :=
  let instance_id := calc_entity_id exploration_id exploration_version
    state_name calculation_id
  let inst : StateAnswersCalcOutputModel β :=
    match store instance_id with
    | none =>
      { exploration_id := exploration_id,
        exploration_version := exploration_version,
        state_name := state_name, calculation_id := calculation_id,
        calculation_output := calculation_output }
    | some old => { old with calculation_output := calculation_output }
  if put_succeeds then
    fun k => if k = instance_id then some inst else store k
  else store

/-- C7: `create_or_update` replaces any previously stored output for the same
(exploration_id, exploration_version, state_name, calculation_id) key with
the new output (last writer wins, no merge), touches no other key, and when
the put fails the exception is swallowed and the operation is a no-op. -/
theorem create_or_update_last_writer_wins (store : CalcOutputStore β)
    (eid ever sname cid : String) (out : β) :
    ((create_or_update true store eid ever sname cid out)
        (calc_entity_id eid ever sname cid)).map
      (fun e => e.calculation_output) = some out ∧
    (∀ k, k ≠ calc_entity_id eid ever sname cid →
      create_or_update true store eid ever sname cid out k = store k) ∧
    create_or_update false store eid ever sname cid out = store := by
  refine ⟨?_, ?_, rfl⟩
  · cases hs : store (calc_entity_id eid ever sname cid) with
    | none => simp [create_or_update, hs]
    | some old => simp [create_or_update, hs]
  · intro k hk
    simp [create_or_update, hk]

/-- C7 witness: overwriting into an empty store, unrelated key untouched,
failed put is a no-op. -/
theorem create_or_update_last_writer_wins_witness :
    ((create_or_update true (fun _ => none : CalcOutputStore Nat)
        "e" "v" "s" "c" 5) (calc_entity_id "e" "v" "s" "c")).map
      (fun e => e.calculation_output) = some 5 ∧
    create_or_update true (fun _ => none : CalcOutputStore Nat)
      "e" "v" "s" "c" 5 "z" = (fun _ => none : CalcOutputStore Nat) "z" ∧
    create_or_update false (fun _ => none : CalcOutputStore Nat)
      "e" "v" "s" "c" 5 = (fun _ => none : CalcOutputStore Nat) := by
  have h := create_or_update_last_writer_wins
    (fun _ => none : CalcOutputStore Nat) "e" "v" "s" "c" 5
  exact ⟨h.1, h.2.1 "z" (by decide), h.2.2⟩

/-- Embedding of `EqualsElementWise._evaluate` over a list-of-unicode-string subject:
`len(subject) > self.k and subject[self.k] == self.x`.  Python's `and`
short-circuits, so the index access `subject[self.k]` only happens under the
bounds guard; the guarded access is modelled by the optional lookup. -/
def EqualsElementWise (k : Nat) (x : String) (subject : List String) : Bool :=
  decide (subject.length > k) && (subject[k]? == some x)

/-- C8: `EqualsElementWise` is false whenever the index is out of bounds,
otherwise it is the equality of the element at index k with x, and the
guarded access is total; with k=2, x="cat" it rejects ["dog","fish"] and
accepts ["dog","fish","cat"]. -/
theorem EqualsElementWise_spec (k : Nat) (x : String) (subject : List String) :
    (subject.length ≤ k → EqualsElementWise k x subject = false) ∧
    (∀ h : k < subject.length,
      EqualsElementWise k x subject = (subject.get ⟨k, h⟩ == x)) ∧
    EqualsElementWise 2 "cat" ["dog", "fish"] = false ∧
    EqualsElementWise 2 "cat" ["dog", "fish", "cat"] = true := by
  refine ⟨?_, ?_, rfl, rfl⟩
  · intro h
    have hnot : ¬(subject.length > k) := by omega
    simp [EqualsElementWise, hnot]
  · intro h
    have hget : subject[k]? = some (subject.get ⟨k, h⟩) := by
      simp [List.getElem?_eq_getElem, h]
    simp [EqualsElementWise, h, hget]

/-- C8 witness: the in-bounds clause applied at k=1. -/
theorem EqualsElementWise_spec_witness :
    EqualsElementWise 1 "fish" ["dog", "fish"] =
      ((["dog", "fish"].get ⟨1, by decide⟩) == "fish") :=
  (EqualsElementWise_spec 1 "fish" ["dog", "fish"]).2.1 (by decide)

/-- Parameters of `HasLengthInclusivelyBetween` (both `NonnegativeInt`). -/
structure HasLengthInclusivelyBetweenRule where
  a : Nat
  b : Nat

/-- Construction of `HasLengthInclusivelyBetween`: `_validate_params` runs
`assert self.a <= self.b` before any evaluation, so construction fails (the
assertion raises) exactly when a > b. -/
def HasLengthInclusivelyBetween (a b : Nat) :
    Option HasLengthInclusivelyBetweenRule :=
  if a ≤ b then some { a := a, b := b } else none

/-- Embedding of `HasLengthInclusivelyBetween._evaluate`:
`self.a <= len(subject) <= self.b`. -/
def HasLengthInclusivelyBetween_evaluate (r : HasLengthInclusivelyBetweenRule)
    (subject : List String) : Bool :=
  decide (r.a ≤ subject.length) && decide (subject.length ≤ r.b)

/-- C9: `HasLengthInclusivelyBetween` fails fast at construction when the
lower bound exceeds the upper bound; every successfully constructed rule
evaluates to true exactly when the subject's length lies inclusively between
a and b; with a=1, b=3 it rejects [] and accepts a two-element list. -/
theorem HasLengthInclusivelyBetween_spec (a b : Nat) :
    (b < a → HasLengthInclusivelyBetween a b = none) ∧
    (∀ r, HasLengthInclusivelyBetween a b = some r →
      ∀ subject : List String,
        (HasLengthInclusivelyBetween_evaluate r subject = true ↔
          a ≤ subject.length ∧ subject.length ≤ b)) ∧
    (∃ r, HasLengthInclusivelyBetween 1 3 = some r ∧
      HasLengthInclusivelyBetween_evaluate r [] = false ∧
      HasLengthInclusivelyBetween_evaluate r ["a", "b"] = true) := by
  refine ⟨?_, ?_, ⟨{ a := 1, b := 3 }, rfl, rfl, rfl⟩⟩
  · intro hba
    have : ¬(a ≤ b) := by omega
    simp [HasLengthInclusivelyBetween, this]
  · intro r hr subject
    have hab : a ≤ b := by
      by_contra hcon
      simp [HasLengthInclusivelyBetween, hcon] at hr
    rw [HasLengthInclusivelyBetween, if_pos hab] at hr
    have hr' : r = { a := a, b := b } := by injection hr.symm
    subst hr'
    simp [HasLengthInclusivelyBetween_evaluate]

/-- C9 witness: the construction-failure clause at a=4, b=2 and the
evaluation clause at a=1, b=3. -/
theorem HasLengthInclusivelyBetween_spec_witness :
    HasLengthInclusivelyBetween 4 2 = none ∧
    (∃ r, HasLengthInclusivelyBetween 1 3 = some r ∧
      HasLengthInclusivelyBetween_evaluate r [] = false ∧
      HasLengthInclusivelyBetween_evaluate r ["a", "b"] = true) :=
  ⟨(HasLengthInclusivelyBetween_spec 4 2).1 (by decide),
   (HasLengthInclusivelyBetween_spec 1 3).2.2⟩

/-- Embedding of `HasElementsIn._evaluate`:
`bool(set(subject).intersection(set(self.x)))`. -/
def HasElementsIn (x : List String) (subject : List String) : Bool :=
  decide (subject.toFinset ∩ x.toFinset).Nonempty

/-- Embedding of `IsDisjointFrom._evaluate`:
`not bool(set(subject).intersection(set(self.x)))`. -/
def IsDisjointFrom (x : List String) (subject : List String) : Bool :=
  !(decide (subject.toFinset ∩ x.toFinset).Nonempty)

/-- C10: `IsDisjointFrom` is the exact boolean negation of `HasElementsIn`
on the same subject and parameter set, and it is true exactly when the
subject has no element in common with x. -/
theorem IsDisjointFrom_negates_HasElementsIn (x subject : List String) :
    IsDisjointFrom x subject = !(HasElementsIn x subject) ∧
    (IsDisjointFrom x subject = true ↔ ∀ s ∈ subject, s ∉ x) := by
  refine ⟨rfl, ?_⟩
  simp only [IsDisjointFrom, Bool.not_eq_true', decide_eq_false_iff_not]
  rw [Finset.not_nonempty_iff_eq_empty]
  constructor
  · intro hemp s hs hsx
    have : s ∈ subject.toFinset ∩ x.toFinset := by
      simp [List.mem_toFinset, hs, hsx]
    rw [hemp] at this
    simp at this
  · intro hdisj
    ext s
    simp only [Finset.mem_inter, List.mem_toFinset, Finset.not_mem_empty,
      iff_false, not_and]
    exact fun hs => hdisj s hs

/-- C10 witness: disjoint and overlapping concrete lists. -/
theorem IsDisjointFrom_negates_HasElementsIn_witness :
    IsDisjointFrom ["a", "b"] ["c", "d"] =
      !(HasElementsIn ["a", "b"] ["c", "d"]) ∧
    (IsDisjointFrom ["a", "b"] ["c", "d"] = true ↔
      ∀ s ∈ ["c", "d"], s ∉ ["a", "b"]) :=
  IsDisjointFrom_negates_HasElementsIn ["a", "b"] ["c", "d"]

end Oppia
